import Mathlib

/-!
Shallow embedding of the FlowCrypt browser message bus (`BrowserMsg`),
the shared API helper (`Api`) and the Google OAuth popup flow
(`GoogleOAuth`), together with theorems settling the specification
claims about them.

Conventions:
* JS strings are Lean `String`s; JS `undefined`/nullable values are
  `Option`s; JS object payloads are association lists from field name to
  a small value universe.
* External collaborators that the repository uses but whose code is not
  part of the embedded sources (the blob store behind object URLs, the
  symmetric message encryption, network/OAuth endpoints) are modelled
  from the specification's interface contracts; each such definition
  carries a doc comment saying so.
-/

/-- Does the character list `pat` occur as a prefix of `l`? -/
def listStartsWith : List Char → List Char → Bool
  | _, [] => true
  | [], _ :: _ => false
  | c :: cs, p :: ps => c == p && listStartsWith cs ps

/-- Does the character list `pat` occur as a contiguous sublist of `l`?
(JS `String.prototype.includes`.) -/
def listHasSub : List Char → List Char → Bool
  | [], pat => pat.isEmpty
  | l@(_ :: t), pat => listStartsWith l pat || listHasSub t pat

/-- JS `s.includes(pat)` on strings. -/
def strIncludes (s pat : String) : Bool :=
  listHasSub s.toList pat.toList

namespace Api

/-- Outcome of one of the `Api` entry points, abstracted to what is
observable for the path-traversal claim: either the call rejects with an
error message before any network request is issued, or a network request
to the given url is issued (its eventual result is irrelevant here). -/
inductive NetOutcome
  | rejected (message : String)
  | requestIssued (url : String)
  | forwardedToBg (url : Option String)
  deriving DecidableEq, Repr

/-- `Api.throwIfApiPathTraversalAttempted`: throws iff the request url
contains `../` or `/..`. -/
def throwIfApiPathTraversalAttempted (requestUrl : String) : Except String Unit :=
  if strIncludes requestUrl "../" || strIncludes requestUrl "/.." then
    Except.error ("API path traversal forbidden: " ++ requestUrl)
  else
    Except.ok ()

/-- `Api.download`: runs the path-traversal guard, then opens and sends an
XMLHttpRequest for the url.  The XHR machinery after the guard is
abstracted to the fact that a network request to `url` is issued. -/
def download (url : String) : NetOutcome :=
  match throwIfApiPathTraversalAttempted url with
  | Except.error msg => NetOutcome.rejected msg
  | Except.ok () => NetOutcome.requestIssued url

/-- `Api.ajax`: in a content script the request is forwarded over the
message bus to the background page (no local guard); otherwise the
path-traversal guard runs before `$.ajax` issues the request.  `reqUrl`
is `req.url` (`undefined` becomes `''` at the guard, as in
`req.url || ''`). -/
def ajax (isContentScript : Bool) (reqUrl : Option String) : NetOutcome :=
  if isContentScript then
    NetOutcome.forwardedToBg reqUrl
  else
    match throwIfApiPathTraversalAttempted (reqUrl.getD "") with
    | Except.error msg => NetOutcome.rejected msg
    | Except.ok () => NetOutcome.requestIssued (reqUrl.getD "")

end Api

namespace BrowserMsg

/-- Value held by one top-level field of a message payload.  `buf` is a
`Uint8Array`/`Buf` of raw bytes; `undef` is JS `undefined`; `other`
abstracts every remaining (non-binary) field value. -/
inductive FieldVal
  | buf (bytes : List Nat)
  | undef
  | other (s : String)
  deriving DecidableEq, Repr

/-- A JS object payload: association list from field name to value. -/
abbrev Payload := List (String × FieldVal)

/-- An entry of the blob store: (handle, bytes, already consumed?). -/
abbrev BlobEntry := Nat × List Nat × Bool

/-- Modelled from the spec: the transport-level blob storage collaborator
behind `Browser.objUrlCreate` / `Browser.objUrlConsume` (not part of the
embedded sources).  Spec section 1 assumes it exposes
`create(bytes) -> handle` and `consume(handle) -> bytes`, consuming and
invalidating the handle exactly once.  Handles are drawn from a fresh
counter; consumed entries stay present with their flag set, so a second
consume of the same handle fails. -/
structure BlobStore where
  next : Nat
  blobs : List BlobEntry
  deriving DecidableEq, Repr

/-- `Browser.objUrlCreate` (spec-modelled, see `BlobStore`). -/
def BlobStore.create (st : BlobStore) (bytes : List Nat) : Nat × BlobStore :=
  (st.next, { next := st.next + 1, blobs := (st.next, bytes, false) :: st.blobs })

/-- Find the entry for handle `t`, return its bytes if not yet consumed. -/
def consumeList : List BlobEntry → Nat → Option (List Nat)
  | [], _ => none
  | (h, bytes, consumed) :: rest, t =>
    if h = t then (if consumed then none else some bytes)
    else consumeList rest t

/-- Mark the first entry for handle `t` as consumed. -/
def markConsumed : List BlobEntry → Nat → List BlobEntry
  | [], _ => []
  | (h, bytes, c) :: rest, t =>
    if h = t then (h, bytes, true) :: rest
    else (h, bytes, c) :: markConsumed rest t

/-- `Browser.objUrlConsume` (spec-modelled, see `BlobStore`): yields the
bytes and invalidates the handle, or fails if the handle is unknown or
already consumed. -/
def BlobStore.consume (st : BlobStore) (t : Nat) : Option (List Nat × BlobStore) :=
  match consumeList st.blobs t with
  | none => none
  | some bytes => some (bytes, { st with blobs := markConsumed st.blobs t })

/-- Store sanity: handles are distinct and below the freshness counter. -/
def BlobStore.Wf (st : BlobStore) : Prop :=
  (st.blobs.map (fun e => e.1)).Nodup ∧ ∀ e ∈ st.blobs, e.1 < st.next

/-- `BrowserMsg.replaceBufWithObjUrlInplace`: walks the top-level fields
of the request/response object in order; every field holding a
`Uint8Array` is replaced in place with `undefined` and an object URL for
its bytes is recorded under the field name. Returns (mutated payload,
`objUrls` dictionary, updated blob store). -/
def replaceBufWithObjUrlInplace : Payload → BlobStore → Payload × List (String × Nat) × BlobStore
  | [], st => ([], [], st)
  | (n, FieldVal.buf b) :: rest, st =>
    let c := st.create b
    let r := replaceBufWithObjUrlInplace rest c.2
    ((n, FieldVal.undef) :: r.1, (n, c.1) :: r.2.1, r.2.2)
  | (n, v) :: rest, st =>
    let r := replaceBufWithObjUrlInplace rest st
    ((n, v) :: r.1, r.2.1, r.2.2)

/-- JS `obj[name] = v`: update the field if present, else append it. -/
def setField : Payload → String → FieldVal → Payload
  | [], n, v => [(n, v)]
  | (m, w) :: rest, n, v =>
    if m = n then (n, v) :: rest else (m, w) :: setField rest n v

/-- `BrowserMsg.replaceObjUrlWithBuf`: for every recorded object URL,
consumes it and writes the bytes back into the named field.  Fails (the
returned promise rejects) if a handle cannot be consumed. -/
def replaceObjUrlWithBuf (p : Payload) : List (String × Nat) → BlobStore → Option (Payload × BlobStore)
  | [], st => some (p, st)
  | (n, h) :: rest, st =>
    match st.consume h with
    | none => none
    | some br => replaceObjUrlWithBuf (setField p n (FieldVal.buf br.1)) rest br.2

/-- What encoding does to a field value. -/
def strip1 : FieldVal → FieldVal
  | FieldVal.buf _ => FieldVal.undef
  | v => v

/-- Payload after encoding: every buffer field replaced by `undefined`. -/
def stripAt (p : Payload) : Payload :=
  p.map (fun nv => (nv.1, strip1 nv.2))

/-- The buffer fields of a payload, in field order. -/
def bufFields : Payload → List (String × List Nat)
  | [] => []
  | (n, FieldVal.buf b) :: rest => (n, b) :: bufFields rest
  | _ :: rest => bufFields rest

/-- Write a list of buffer fields back into a payload, in order. -/
def applySets (q : Payload) : List (String × List Nat) → Payload
  | [] => q
  | (n, b) :: rest => applySets (setField q n (FieldVal.buf b)) rest

/-- `Bm.Raw`: one wire message.  `to = none` models JS `null`
(addressed to the background), `uid` is the per-send unique id used as
the sole deduplication key, `stack` the sender's stack trace. -/
structure RawMsg where
  name : String
  bm : Payload
  objUrls : List (String × Nat)
  toDest : Option String
  uid : String
  stack : String
  deriving DecidableEq, Repr

/-- Mutable per-context state of a non-privileged context: the
`BrowserMsg.processed` dedup set, the names registered in
`HANDLERS_REGISTERED_FRAME`, the context's view of the blob store, and a
log of handler invocations `(name, uid)`, most recent first. -/
structure CtxState where
  processed : List String
  frameHandlers : List String
  store : BlobStore
  invoked : List (String × String)
  deriving DecidableEq, Repr

/-- `BrowserMsg.handleMsg`: dispatches a message to the frame registry.
Returns the updated state and the listener's return value (`true` iff a
response will be produced).  An unseen uid is recorded first; the handler
runs only if the name is registered and decoding the object URLs
succeeds (a decode failure rejects the handler promise, producing an
error response but no handler invocation).  A duplicate uid does nothing
and returns `false`. -/
def handleMsg (st : CtxState) (msg : RawMsg) : CtxState × Bool :=
  if msg.uid ∈ st.processed then (st, false)
  else
    let st1 : CtxState := { st with processed := List.insert msg.uid st.processed }
    if msg.name ∈ st1.frameHandlers then
      match replaceObjUrlWithBuf msg.bm msg.objUrls st1.store with
      | some r =>
        ({ st1 with store := r.2, invoked := (msg.name, msg.uid) :: st1.invoked }, true)
      | none => (st1, true)
    else (st1, false)

/-- The `chrome.runtime.onMessage` listener installed by
`BrowserMsg.listen(dest)`: dispatches via `handleMsg` when `msg.to` is
truthy and equals `dest` or `'broadcast'`. -/
def directListen (dest : String) (st : CtxState) (msg : RawMsg) : CtxState × Bool :=
  match msg.toDest with
  | none => (st, false)
  | some t =>
    if t ≠ "" ∧ (t = dest ∨ t = "broadcast") then handleMsg st msg else (st, false)

/-- Modelled from the spec: `SymEncryptedMessage` produced by the
`SymmetricMessageEncryption` collaborator (not part of the embedded
sources).  Spec section 1 assumes `encrypt(envelope) -> ciphertext` /
`decrypt(ciphertext) -> envelope` with the message id as the per-message
nonce; the routing fields (`uid`, `to`, `propagateToParent`) stay
readable on the ciphertext, the payload is opaque.  Perfect encryption
is modelled by carrying the envelope itself. -/
structure SymEncryptedMessage where
  uid : String
  toDest : String
  propagateToParent : Bool
  raw : RawMsg
  deriving DecidableEq, Repr

/-- `SymmetricMessageEncryption.encrypt` (spec-modelled, see
`SymEncryptedMessage`). -/
def symEncrypt (raw : RawMsg) : SymEncryptedMessage :=
  { uid := raw.uid, toDest := raw.toDest.getD "", propagateToParent := false, raw := raw }

/-- `SymmetricMessageEncryption.decrypt` (spec-modelled, see
`SymEncryptedMessage`). -/
def symDecrypt (e : SymEncryptedMessage) : RawMsg :=
  e.raw

/-- `BrowserMsg.sendUpParentLine`: walks `w` up the parent chain, once
per proper ancestor, each time posting the message — with
`propagateToParent: true` — to `window.parent`, i.e. to the *immediate*
parent.  `depth` is the number of proper ancestors of the current
window; the result is the list of messages posted to the immediate
parent (empty at the top window). -/
def sendUpParentLine (depth : Nat) (e : SymEncryptedMessage) : List SymEncryptedMessage :=
  List.replicate depth { e with propagateToParent := true }

/-- The window `message` listener installed by
`BrowserMsg.listenForWindowMessages(dest)` for one delivered event.
`origin` is the event's origin, `depth` the window's number of proper
ancestors.  Returns (updated state, `handled`, messages posted to the
immediate parent). -/
def listenForWindowMessages (dest extensionOrigin : String) (depth : Nat) (st : CtxState)
    (origin : String) (e : SymEncryptedMessage) : CtxState × Bool × List SymEncryptedMessage :=
  if origin ≠ "https://mail.google.com" ∧ origin ≠ extensionOrigin then (st, false, [])
  else if e.uid ∈ st.processed then (st, false, [])
  else
    let hr : CtxState × Bool :=
      if e.toDest = dest ∨ e.toDest = "broadcast" then handleMsg st (symDecrypt e) else (st, false)
    if ¬hr.2 ∧ e.propagateToParent then
      ({ hr.1 with processed := List.insert e.uid hr.1.processed }, false,
        sendUpParentLine depth e)
    else (hr.1, hr.2, [])

/-- Mutable state of the privileged background context: the names
registered in `HANDLERS_REGISTERED_BACKGROUND`, the blob store, and the
invocation log `(name, uid)`. -/
structure BgState where
  bgHandlers : List String
  store : BlobStore
  invoked : List (String × String)
  deriving DecidableEq, Repr

/-- The `chrome.runtime.onMessage` listener installed by
`BrowserMsg.bgListen()`: if the name is registered in the background
registry the handler runs (after object-URL decoding); otherwise the
message is ignored.  Note there is no `processed`-set membership test on
this path. -/
def bgListen (st : BgState) (msg : RawMsg) : BgState × Bool :=
  if msg.name ∈ st.bgHandlers then
    match replaceObjUrlWithBuf msg.bm msg.objUrls st.store with
    | some r =>
      ({ st with store := r.2, invoked := (msg.name, msg.uid) :: st.invoked }, true)
    | none => (st, true)
  else (st, false)

/-- One delivery of a message to a single non-privileged context, via
either of its two listeners. -/
inductive Delivery
  | direct (msg : RawMsg)
  | window (origin : String) (e : SymEncryptedMessage)
  deriving DecidableEq, Repr

/-- Process one delivery at a context (ignoring listener return values
and outbound posts: only the state evolution matters for dispatch
counting). -/
def deliverOne (dest extensionOrigin : String) (depth : Nat) (st : CtxState) :
    Delivery → CtxState
  | Delivery.direct msg => (directListen dest st msg).1
  | Delivery.window origin e => (listenForWindowMessages dest extensionOrigin depth st origin e).1

/-- Process a sequence of deliveries at a context. -/
def deliverAll (dest extensionOrigin : String) (depth : Nat) :
    List Delivery → CtxState → CtxState
  | [], st => st
  | d :: ds, st => deliverAll dest extensionOrigin depth ds (deliverOne dest extensionOrigin depth st d)

/-! ### Window hierarchy model (Propagation Channel, claims C3/C7)

Frames are numbered by their index into a list; each frame records its
parent (if any), the origin of its document, its destination id and its
`BrowserMsg` context state. -/

/-- One frame of the window hierarchy. -/
structure FrameCtx where
  dest : String
  parentId : Option Nat
  origin : String
  st : CtxState
  deriving DecidableEq, Repr

/-- Number of proper ancestors of frame `i` (`0` for the top window or a
dangling index), computed with fuel bounded by the frame count. -/
def depthOfAux (frames : List FrameCtx) : Nat → Nat → Nat
  | 0, _ => 0
  | fuel + 1, i =>
    match frames[i]? with
    | none => 0
    | some f =>
      match f.parentId with
      | none => 0
      | some p => if p = i then 0 else depthOfAux frames fuel p + 1

/-- Number of proper ancestors of frame `i`. -/
def depthOf (frames : List FrameCtx) (i : Nat) : Nat :=
  depthOfAux frames frames.length i

/-- `window.parent` of frame `i` (itself at the top window). -/
def parentTargetOf (frames : List FrameCtx) (i : Nat) : Nat :=
  match frames[i]? with
  | none => i
  | some f => f.parentId.getD i

/-- The frames whose document is a child iframe of frame `i` with the
extension origin (the filter applied by `BrowserMsg.sendToChildren`). -/
def childFramesOf (frames : List FrameCtx) (extensionOrigin : String) (i : Nat) : List Nat :=
  (frames.enum.filter
    (fun nf => nf.2.parentId = some i ∧ nf.2.origin = extensionOrigin)).map (fun nf => nf.1)

/-- One `postMessage` emission: target frame, origin of the posting
window, posted data. -/
structure Post where
  target : Nat
  origin : String
  e : SymEncryptedMessage
  deriving DecidableEq, Repr

/-- The window-messaging branch of `BrowserMsg.sendRaw`, taken when the
caller is not the background page and `msg.to` is non-null: encrypt the
raw message, post the ciphertext to every extension-origin child iframe
(`sendToChildren`), to the sender's own window, and — via
`sendUpParentLine` — once per ancestor level to the sender's *immediate*
parent, with the propagation flag set. -/
def sendRawWindowPosts (frames : List FrameCtx) (extensionOrigin : String) (sender : Nat)
    (msg : RawMsg) : List Post :=
  let senderOrigin := ((frames[sender]?).map (fun f => f.origin)).getD ""
  let e := symEncrypt msg
  (childFramesOf frames extensionOrigin sender).map (fun c => { target := c, origin := senderOrigin, e := e })
    ++ [{ target := sender, origin := senderOrigin, e := e }]
    ++ (sendUpParentLine (depthOf frames sender) e).map
        (fun ep => { target := parentTargetOf frames sender, origin := senderOrigin, e := ep })

/-- The window-messaging side effect of `BrowserMsg.sendRaw` as guarded
in the source: nothing is posted from the background page or when
`msg.to` is null. -/
def sendRawWindowBranch (isBackgroundPage : Bool) (frames : List FrameCtx)
    (extensionOrigin : String) (sender : Nat) (msg : RawMsg) : List Post :=
  match msg.toDest with
  | none => []
  | some _ => if isBackgroundPage then [] else sendRawWindowPosts frames extensionOrigin sender msg

/-- Whole-hierarchy state: the frames plus the queue of pending
`postMessage` deliveries. -/
structure SysState where
  frames : List FrameCtx
  queue : List Post
  deriving DecidableEq, Repr

/-- Deliver the first queued post: run the receiving frame's window
listener and enqueue whatever it posts onward (all onward posts target
that frame's immediate parent). -/
def sysStep (extensionOrigin : String) (s : SysState) : SysState :=
  match s.queue with
  | [] => s
  | post :: rest =>
    match s.frames[post.target]? with
    | none => { s with queue := rest }
    | some f =>
      let d := depthOf s.frames post.target
      let r := listenForWindowMessages f.dest extensionOrigin d f.st post.origin post.e
      let pt := parentTargetOf s.frames post.target
      { frames := s.frames.set post.target { f with st := r.1 },
        queue := rest ++ r.2.2.map (fun ep => { target := pt, origin := f.origin, e := ep }) }

/-- Run the hierarchy for `fuel` delivery steps. -/
def sysRun (extensionOrigin : String) : Nat → SysState → SysState
  | 0, s => s
  | fuel + 1, s => sysRun extensionOrigin fuel (sysStep extensionOrigin s)

/-- Handler-invocation count of `(name, uid)` at frame `i`. -/
def invokedCountAt (s : SysState) (i : Nat) (name uid : String) : Nat :=
  match s.frames[i]? with
  | none => 0
  | some f => f.st.invoked.count (name, uid)

/-! ### Error marshalling and the response correlator (claims C2/C4/C6/C8) -/

/-- Which JS error class a thrown value belongs to.  `ajaxErr` carries
the HTTP failure detail of the `AjaxErr` class; `typeErr` models the
host TypeError raised when a non-function is called. -/
inductive ErrName
  | plainErr
  | bgNotReady
  | ajaxErr (status : Int) (url responseText statusText : String)
      (resMsg resDetails : Option String)
  | typeErr
  deriving DecidableEq, Repr

/-- A JS error value: class, `message` and `stack`. -/
structure JsErr where
  ctor : ErrName
  message : String
  stack : String
  deriving DecidableEq, Repr

/-- `Bm.ErrAsJson`: the transferable tagged error record. -/
inductive ErrAsJson
  | standard (stack : Option String) (message : String)
  | ajax (stack : Option String) (message : String) (status : Int)
      (url responseText statusText : String) (resMsg resDetails : Option String)
  deriving DecidableEq, Repr

/-- `BrowserMsg.errToJson`: an `AjaxErr` instance becomes the `AjaxErr`
record with all its fields; anything else goes through
`Catch.rewrapErr(e, 'sendRawResponse')` and becomes a `Standard` record.
`Catch.rewrapErr` is not part of the embedded sources; modelled from the
spec (section 4.6: "otherwise emit Standard with message and stack"), it
preserves an error's message and stack. -/
def errToJson (e : JsErr) : ErrAsJson :=
  match e.ctor with
  | ErrName.ajaxErr status url responseText statusText resMsg resDetails =>
    ErrAsJson.ajax (some e.stack) e.message status url responseText statusText resMsg resDetails
  | _ => ErrAsJson.standard (some e.stack) e.message

/-- JS string rendering of an optional stack (`undefined` when absent),
as interpolated by `jsonToErr`. -/
def stackStr : Option String → String
  | none => "undefined"
  | some s => s

/-- The `stackInfo` string built by `BrowserMsg.jsonToErr`. -/
def stackInfo (msgStack : String) (recStack : Option String) : String :=
  "\n\n[callerStack]\n" ++ msgStack ++ "\n[/callerStack]\n\n[responderStack]\n"
    ++ stackStr recStack ++ "\n[/responderStack]\n"

/-- `BrowserMsg.jsonToErr`: reconstructs the remote failure on the
caller side.  `msgName`/`msgStack` come from the caller's envelope;
`freshStack` is the stack captured at the construction point of the new
error object.  An `AjaxErr` record rebuilds a typed `AjaxErr` (class not
part of the embedded sources; modelled from the spec, section 4.6, as the
typed network-failure error with its detail fields intact and the passed
stack info appended to its own stack); a `Standard` record rebuilds a
plain `Error` with `stackInfo` appended to its stack. -/
def jsonToErr (rec : ErrAsJson) (msgName msgStack freshStack : String) : JsErr :=
  match rec with
  | ErrAsJson.ajax stack message status url responseText statusText resMsg resDetails =>
    { ctor := ErrName.ajaxErr status url responseText statusText resMsg resDetails,
      message := "BrowserMsg(" ++ msgName ++ ") " ++ message,
      stack := freshStack ++ stackInfo msgStack stack }
  | ErrAsJson.standard stack message =>
    { ctor := ErrName.plainErr,
      message := "BrowserMsg(" ++ msgName ++ ") " ++ message,
      stack := freshStack ++ stackInfo msgStack stack }

/-- The `result` field of a `Bm.RawResponse`: `undefined`, a non-object
primitive (carried with its JS string rendering), or an object
payload. -/
inductive ResVal
  | undef
  | prim (s : String)
  | payload (p : Payload)
  deriving DecidableEq, Repr

/-- `Bm.RawResponse` as received by the response correlator. -/
structure RawResponse where
  result : ResVal
  objUrls : List (String × Nat)
  exception : Option ErrAsJson
  deriving DecidableEq, Repr

/-- The raw reply `r` passed by the platform to the send callback:
`undefined`, `null`, a non-object primitive (with its JS string
rendering), or a response object. -/
inductive RawReply
  | undef
  | null
  | prim (s : String)
  | obj (r : RawResponse)
  deriving DecidableEq, Repr

/-- JS `String(r)` as used in the `returned(...)` diagnostic. -/
def strOfReply : RawReply → String
  | RawReply.undef => "undefined"
  | RawReply.null => "null"
  | RawReply.prim s => s
  | RawReply.obj _ => "[object Object]"

/-- The observable completion of an awaited send. -/
inductive Outcome
  | resolved (v : ResVal)
  | rejected (e : JsErr)
  deriving DecidableEq, Repr

/-- The `chrome.runtime.lastError` state at callback time: `none` = no
`lastError`; `some none` = a `lastError` without a message; `some (some
s)` = a `lastError` with message `s` (an empty `s` is falsy in JS). -/
def lastErrorText : Option (Option String) → String
  | none => "(no lastError)"
  | some none => "(empty lastError)"
  | some (some s) => if s = "" then "(empty lastError)" else s

/-- `processRawMsgResponse` inside `BrowserMsg.sendRaw`: the response
correlator.  `destString` is the destination argument of the send
(`none` = addressed to the background), `name` the message name,
`msgStack` the stack recorded in the sent envelope, `freshStack` the
stack of an error constructed here, `lastErr` the platform
`chrome.runtime.lastError`, `store` the blob store, `r` the raw reply.
Returns the outcome and the (possibly) updated store. -/
def processRawMsgResponse (awaitRes : Bool) (destString : Option String)
    (name msgStack freshStack : String) (lastErr : Option (Option String))
    (store : BlobStore) (r : RawReply) : Outcome × BlobStore :=
  if ¬awaitRes then (Outcome.resolved ResVal.undef, store)
  else
    match r with
    | RawReply.obj rr =>
      match rr.exception with
      | some exn => (Outcome.rejected (jsonToErr exn name msgStack freshStack), store)
      | none =>
        match rr.result with
        | ResVal.payload p =>
          match replaceObjUrlWithBuf p rr.objUrls store with
          | some pr => (Outcome.resolved (ResVal.payload pr.1), pr.2)
          | none =>
            -- `Browser.objUrlConsume` rejecting; the error value the
            -- collaborator throws is outside the embedded sources and
            -- abstracted here.
            (Outcome.rejected ⟨ErrName.plainErr, "objUrlConsume failed", freshStack⟩, store)
        | v => (Outcome.resolved v, store)
    | badReply =>
      let t := lastErrorText lastErr
      let e : JsErr :=
        if destString = none ∧ badReply = RawReply.undef then
          if t = "The object could not be cloned." then
            { ctor := ErrName.plainErr,
              message := "BrowserMsg.sendAwait(" ++ name ++ ") failed with lastError: " ++ t,
              stack := freshStack }
          else if t = "Could not establish connection. Receiving end does not exist."
              ∨ t = "The message port closed before a response was received." then
            { ctor := ErrName.bgNotReady,
              message := "BgNotReadyErr: BrowserMsg.sendAwait(" ++ name
                ++ ") failed with lastError: " ++ t,
              stack := freshStack }
          else
            { ctor := ErrName.plainErr,
              message := "BrowserMsg.sendAwait(" ++ name ++ ") failed with unknown lastError: " ++ t,
              stack := freshStack }
        else
          { ctor := ErrName.plainErr,
            message := "BrowserMsg.sendAwait(" ++ name ++ ") returned(" ++ strOfReply badReply
              ++ ") with lastError: " ++ t,
            stack := freshStack }
      (Outcome.rejected { e with stack := msgStack ++ "\n\n" ++ e.stack }, store)

/-- `BrowserMsg.sendCatch` attaches `.catch(Catch.reportErr)` to the
non-awaited send: a resolved send completes, a rejected one is logged
and swallowed; nothing is re-raised to the caller. -/
inductive CaughtResult
  | completed
  | loggedErr (e : JsErr)
  deriving DecidableEq, Repr

/-- Effect of `BrowserMsg.sendCatch` on a send outcome. -/
def sendCatchResult : Outcome → CaughtResult
  | Outcome.resolved _ => CaughtResult.completed
  | Outcome.rejected e => CaughtResult.loggedErr e

/-- Behaviour of the registered background handler on the sent payload:
`none` = no handler registered under the name, otherwise the handler's
success value or thrown failure. -/
inductive HandlerOutcome
  | ok (v : ResVal)
  | fail (e : JsErr)
  deriving DecidableEq, Repr

/-- The in-process bypass in `BrowserMsg.sendAwait`, taken when the
caller is the background page and `destString` is undefined: the
background handler is looked up *without* an existence check and called
directly; an unregistered name therefore calls `undefined` and raises a
host TypeError (its exact message text is host-defined and abstracted
here). -/
def sendAwaitBypass (handlerFor : Option HandlerOutcome) (name tfStack : String) : Outcome :=
  match handlerFor with
  | none =>
    Outcome.rejected ⟨ErrName.typeErr, "handler is not a function: " ++ name, tfStack⟩
  | some (HandlerOutcome.ok v) => Outcome.resolved v
  | some (HandlerOutcome.fail e) => Outcome.rejected e

/-- The same background-addressed awaited call taken through the
transport: `chrome.runtime.sendMessage` delivers to `bgListen`; a
registered handler's result or failure is marshalled by
`sendRawResponse` (buffers moved to object URLs, failures through
`errToJson`) and classified back by `processRawMsgResponse`; an
unregistered name makes `bgListen` return `false`, so no response is
sent and the platform reports "The message port closed before a
response was received." (the source comments on exactly this case). -/
def transportBgCall (handlerFor : Option HandlerOutcome) (name msgStack freshStack : String)
    (store : BlobStore) : Outcome × BlobStore :=
  match handlerFor with
  | none =>
    processRawMsgResponse true none name msgStack freshStack
      (some (some "The message port closed before a response was received.")) store RawReply.undef
  | some (HandlerOutcome.ok (ResVal.payload p)) =>
    let enc := replaceBufWithObjUrlInplace p store
    processRawMsgResponse true none name msgStack freshStack none enc.2.2
      (RawReply.obj { result := ResVal.payload enc.1, objUrls := enc.2.1, exception := none })
  | some (HandlerOutcome.ok v) =>
    processRawMsgResponse true none name msgStack freshStack none store
      (RawReply.obj { result := v, objUrls := [], exception := none })
  | some (HandlerOutcome.fail e) =>
    processRawMsgResponse true none name msgStack freshStack none store
      (RawReply.obj { result := ResVal.undef, objUrls := [], exception := some (errToJson e) })

end BrowserMsg

namespace GoogleOAuth

/-- JS truthiness of an optional string: `undefined` and `''` are falsy. -/
def truthyS : Option String → Bool
  | none => false
  | some s => s ≠ ""

/-- A value thrown by the awaited collaborators: either an `AssertError`
(URL-parameter assertion) or any other `Error`, with its message. -/
inductive Thrown
  | assertErr (m : String)
  | errObj (m : String)
  deriving DecidableEq, Repr

/-- JS `String(err)` on a thrown error object. -/
def renderThrown : Thrown → String
  | Thrown.assertErr m => "AssertError: " ++ m
  | Thrown.errObj m => "Error: " ++ m

/-- `GoogleAuthWindowResult$result`. -/
inductive AuthResultTag
  | success
  | denied
  | errorTag
  | closed
  deriving DecidableEq, Repr

/-- `AuthRes`: the discriminated result of the auth popup.  `idToken`
models `id_token` (present on success, `undefined` otherwise). -/
structure AuthRes where
  result : AuthResultTag
  acctEmail : Option String
  error : Option String
  idToken : Option String
  deriving DecidableEq, Repr

/-- `Bm.AuthWindowResult`: what the OAuth popup window reported. -/
structure AuthWindowResult where
  url : Option String
  error : Option String
  deriving DecidableEq, Repr

/-- Scope url constants from `GoogleOAuth.OAUTH.scopes`. -/
def scopeEmail : String := "email"

def scopeOpenid : String := "openid"

def scopeProfile : String := "https://www.googleapis.com/auth/userinfo.profile"

def scopeCompose : String := "https://www.googleapis.com/auth/gmail.compose"

def scopeModify : String := "https://www.googleapis.com/auth/gmail.modify"

def scopeReadContacts : String := "https://www.googleapis.com/auth/contacts.readonly"

def scopeReadOtherContacts : String := "https://www.googleapis.com/auth/contacts.other.readonly"

/-- `GoogleOAuth.defaultScopes`: scope set per build flavor and group;
an unknown flavor or group throws. -/
def defaultScopes (flavor group : String) : Except Thrown (List String) :=
  if group = "default" then
    if flavor = "consumer" then
      Except.ok [scopeOpenid, scopeEmail, scopeProfile, scopeCompose, scopeModify]
    else if flavor = "enterprise" then
      Except.ok [scopeOpenid, scopeEmail, scopeProfile, scopeCompose, scopeModify,
        scopeReadContacts, scopeReadOtherContacts]
    else Except.error (Thrown.errObj ("Unknown build " ++ flavor))
  else if group = "contacts" then
    Except.ok [scopeOpenid, scopeEmail, scopeProfile, scopeCompose, scopeModify,
      scopeReadContacts, scopeReadOtherContacts]
  else Except.error (Thrown.errObj ("Unknown scope group " ++ group))

/-- `GoogleOAuth.apiGoogleAuthPopupPrepareAuthReqScopes`: appends the
`email`, `openid` and `profile` scopes when missing. -/
def apiGoogleAuthPopupPrepareAuthReqScopes (addScopes : List String) : List String :=
  let s1 := if scopeEmail ∈ addScopes then addScopes else addScopes ++ [scopeEmail]
  let s2 := if scopeOpenid ∈ s1 then s1 else s1 ++ [scopeOpenid]
  if scopeProfile ∈ s2 then s2 else s2 ++ [scopeProfile]

/-- The scopes checked for "Missing permissions" in `getAuthRes`. -/
def scopesToCheck : List String :=
  [scopeCompose, scopeModify, scopeReadContacts, scopeReadOtherContacts]

/-- Results of the awaited external collaborators of the popup flow (the
OAuth popup window, `Url.parse`/`Assert` on the redirect url, the token
endpoint, `parseIdToken`, and the FES/AccountServer availability block);
each is universally quantified in the theorems. -/
structure AuthEnv where
  webAuthFlow : Except Thrown AuthWindowResult
  parseParams : Except Thrown (String × Option String × String)
  tokens : Except Thrown String
  idTokenEmail : Except Thrown (Option String)
  fesCheck : Except Thrown Unit
  fesUnreachable : Bool
  authReqJson : String

/-- The `try` body of `GoogleOAuth.getAuthRes`; early `return`s are
`Except.ok`, thrown values are `Except.error`.  `parseParams` yields
`(allowedScopes, code, receivedState)`. -/
def getAuthResTryBody (requestedScopes : List String) (expectedState : String)
    (acctEmail : Option String) (env : AuthEnv) (awr : AuthWindowResult) :
    Except Thrown AuthRes :=
  if ¬truthyS awr.url then
    Except.ok ⟨AuthResultTag.denied, acctEmail, some "Invalid response url", none⟩
  else if truthyS awr.error then
    Except.ok ⟨AuthResultTag.denied, acctEmail, awr.error, none⟩
  else
    match env.parseParams with
    | Except.error t => Except.error t
    | Except.ok (allowedScopes, code, receivedState) =>
      if scopesToCheck.any
          (fun s => requestedScopes.contains s && ¬strIncludes allowedScopes s) then
        Except.ok ⟨AuthResultTag.denied, acctEmail, some "Missing permissions", none⟩
      else if ¬truthyS code then
        Except.ok ⟨AuthResultTag.denied, acctEmail,
          some "Google auth result was \x27Success\x27 but no auth code", none⟩
      else if receivedState ≠ expectedState then
        Except.ok ⟨AuthResultTag.errorTag, acctEmail,
          some "Wrong oauth CSRF token. Please try again.", none⟩
      else
        match env.tokens with
        | Except.error t => Except.error t
        | Except.ok idToken =>
          match env.idTokenEmail with
          | Except.error t => Except.error t
          | Except.ok email =>
            if ¬truthyS email then
              Except.error (Thrown.errObj "Missing email address in id_token")
            else
              Except.ok ⟨AuthResultTag.success, email, none, some idToken⟩

/-- `GoogleOAuth.getAuthRes` with its `catch`: an `AssertError` becomes
the URL-parse error result, any other thrown value a denial carrying
`String(err)`. -/
def getAuthRes (requestedScopes : List String) (expectedState : String)
    (acctEmail : Option String) (env : AuthEnv) (awr : AuthWindowResult) : AuthRes :=
  match getAuthResTryBody requestedScopes expectedState acctEmail env awr with
  | Except.ok r => r
  | Except.error (Thrown.assertErr _) =>
    ⟨AuthResultTag.errorTag, acctEmail, some "Could not parse URL returned from Google", none⟩
  | Except.error t =>
    ⟨AuthResultTag.denied, acctEmail, some (renderThrown t), none⟩

/-- `GoogleOAuth.newAuthPopup`: lowercases the account email, defaults
`save` to true, prepares the scope list (possibly from
`defaultScopes`, which may throw), runs the popup flow and `getAuthRes`,
then downgrades a `Success` missing its id token or account email to an
`Error` result, and reports FES availability problems as `Error`
results.  A thrown collaborator failure rejects the whole call
(`Except.error`). -/
def newAuthPopup (flavor : String) (acctEmail0 : Option String)
    (scopes0 : Option (List String)) (save0 : Option Bool) (env : AuthEnv) :
    Except Thrown AuthRes :=
  let acctEmail := acctEmail0.map String.toLower
  let save := save0.getD true
  let scopesE : Except Thrown (List String) :=
    if save ∨ scopes0 = none then
      match scopes0 with
      | some s => Except.ok (apiGoogleAuthPopupPrepareAuthReqScopes s)
      | none => (defaultScopes flavor "default").map apiGoogleAuthPopupPrepareAuthReqScopes
    else Except.ok (scopes0.getD [])
  match scopesE with
  | Except.error t => Except.error t
  | Except.ok scopes =>
    let expectedState := "CRYPTUP_STATE_" ++ env.authReqJson
    match env.webAuthFlow with
    | Except.error t => Except.error t
    | Except.ok awr =>
      let authRes := getAuthRes scopes expectedState acctEmail env awr
      if authRes.result = AuthResultTag.success then
        if ¬truthyS authRes.idToken then
          Except.ok ⟨AuthResultTag.errorTag, authRes.acctEmail,
            some "Grant was successful but missing id_token", none⟩
        else if ¬truthyS authRes.acctEmail then
          Except.ok ⟨AuthResultTag.errorTag, authRes.acctEmail,
            some "Grant was successful but missing acctEmail", none⟩
        else
          match env.fesCheck with
          | Except.ok _ => Except.ok authRes
          | Except.error e =>
            if env.fesUnreachable then
              Except.ok ⟨AuthResultTag.errorTag, authRes.acctEmail,
                some ("Cannot reach your company\x27s FlowCrypt External Service (FES). Contact your Help Desk when unsure. ("
                  ++ renderThrown e ++ ")"), none⟩
            else
              Except.ok ⟨AuthResultTag.errorTag, authRes.acctEmail,
                some ("Grant successful but error accessing fc account: " ++ renderThrown e), none⟩
      else Except.ok authRes

end GoogleOAuth

example :
    BrowserMsg.replaceBufWithObjUrlInplace
      [("a", BrowserMsg.FieldVal.buf [1, 2]), ("b", BrowserMsg.FieldVal.other "x")] ⟨0, []⟩ =
    ([("a", BrowserMsg.FieldVal.undef), ("b", BrowserMsg.FieldVal.other "x")], [("a", 0)],
      ⟨1, [(0, [1, 2], false)]⟩) := by decide

example :
    BrowserMsg.replaceObjUrlWithBuf
      [("a", BrowserMsg.FieldVal.undef), ("b", BrowserMsg.FieldVal.other "x")] [("a", 0)]
      ⟨1, [(0, [1, 2], false)]⟩ =
    some ([("a", BrowserMsg.FieldVal.buf [1, 2]), ("b", BrowserMsg.FieldVal.other "x")],
      ⟨1, [(0, [1, 2], true)]⟩) := by decide

/-- C10 scratch check. -/
example : Api.download "https://x/a/../b" =
    Api.NetOutcome.rejected "API path traversal forbidden: https://x/a/../b" := by decide

example : Api.download "https://x/a/b" = Api.NetOutcome.requestIssued "https://x/a/b" := by decide

example : Api.ajax false (some "https://x/c/..") =
    Api.NetOutcome.rejected "API path traversal forbidden: https://x/c/.." := by decide

/-! ## Claim theorems -/

/-- C10: for every URL string containing the substring `../` or `/..`,
`Api.download(url)` and `Api.ajax(req)` outside a content script reject
with a path-traversal error before issuing any network request; for
every URL containing neither substring, the guard never throws. -/
theorem Api.c10_path_traversal_guard (url : String) :
    (strIncludes url "../" = true ∨ strIncludes url "/.." = true →
      Api.download url = Api.NetOutcome.rejected ("API path traversal forbidden: " ++ url) ∧
      Api.ajax false (some url) =
        Api.NetOutcome.rejected ("API path traversal forbidden: " ++ url)) ∧
    (strIncludes url "../" = false ∧ strIncludes url "/.." = false →
      Api.throwIfApiPathTraversalAttempted url = Except.ok () ∧
      Api.download url = Api.NetOutcome.requestIssued url ∧
      Api.ajax false (some url) = Api.NetOutcome.requestIssued url) := by
  constructor
  · intro h
    have hc : (strIncludes url "../" || strIncludes url "/..") = true := by
      rcases h with h | h <;> simp [h]
    simp [Api.download, Api.ajax, Api.throwIfApiPathTraversalAttempted, hc]
  · rintro ⟨h1, h2⟩
    simp [Api.download, Api.ajax, Api.throwIfApiPathTraversalAttempted, h1, h2]

/-- C10 witness: the guard fires on a traversal url and stays silent on
a clean one. -/
theorem Api.c10_path_traversal_guard_witness :
    Api.download "https://x/a/../b" =
        Api.NetOutcome.rejected "API path traversal forbidden: https://x/a/../b" ∧
      Api.download "https://x/a/b" = Api.NetOutcome.requestIssued "https://x/a/b" :=
  ⟨((Api.c10_path_traversal_guard "https://x/a/../b").1 (Or.inl (by decide))).1,
    ((Api.c10_path_traversal_guard "https://x/a/b").2 ⟨by decide, by decide⟩).2.1⟩

/-- C8: a send with `awaitResponse = false` resolves with no value no
matter what raw reply or platform error state the callback later sees —
in particular for a message name with no registered handler (reply
`undefined`); it never rejects, consumes nothing from the blob store,
and `sendCatch` completes without re-raising anything. -/
theorem BrowserMsg.c8_fire_and_forget_nonblocking (destString : Option String)
    (name msgStack freshStack : String) (lastErr : Option (Option String))
    (store : BrowserMsg.BlobStore) (r : BrowserMsg.RawReply) :
    BrowserMsg.processRawMsgResponse false destString name msgStack freshStack lastErr store r =
        (BrowserMsg.Outcome.resolved BrowserMsg.ResVal.undef, store) ∧
      BrowserMsg.sendCatchResult
          (BrowserMsg.processRawMsgResponse false destString name msgStack freshStack lastErr
            store r).1 =
        BrowserMsg.CaughtResult.completed := by
  simp [BrowserMsg.processRawMsgResponse, BrowserMsg.sendCatchResult]

/-- C6: marshalling a handler failure through `errToJson` and
reconstructing it with `jsonToErr` yields an error whose message is the
original message name followed by the remote message, whose stack is the
construction-point stack followed by the caller's send-time stack, the
`[callerStack]`/`[responderStack]` markers and the responder's stack,
and which is again a typed `AjaxErr` with identical `status`, `url`,
`responseText` and `statusText` whenever the original failure was an
`AjaxErr`. -/
theorem BrowserMsg.c6_error_marshalling_fidelity (e : BrowserMsg.JsErr)
    (msgName msgStack freshStack : String) :
    (BrowserMsg.jsonToErr (BrowserMsg.errToJson e) msgName msgStack freshStack).message =
        "BrowserMsg(" ++ msgName ++ ") " ++ e.message ∧
      (BrowserMsg.jsonToErr (BrowserMsg.errToJson e) msgName msgStack freshStack).stack =
        freshStack ++ "\n\n[callerStack]\n" ++ msgStack ++
          "\n[/callerStack]\n\n[responderStack]\n" ++ e.stack ++ "\n[/responderStack]\n" ∧
      ∀ status url responseText statusText resMsg resDetails,
        e.ctor = BrowserMsg.ErrName.ajaxErr status url responseText statusText resMsg resDetails →
        (BrowserMsg.jsonToErr (BrowserMsg.errToJson e) msgName msgStack freshStack).ctor =
          BrowserMsg.ErrName.ajaxErr status url responseText statusText resMsg resDetails := by
  obtain ⟨ctor, message, stack⟩ := e
  cases ctor <;>
    simp [BrowserMsg.errToJson, BrowserMsg.jsonToErr, BrowserMsg.stackInfo, BrowserMsg.stackStr,
      String.append_assoc]

/-- C6 witness: a 404 `AjaxErr` with body `not found` is reconstructed
as a typed `AjaxErr` with status 404 and a message carrying the original
message name. -/
theorem BrowserMsg.c6_error_marshalling_fidelity_witness :
    (BrowserMsg.jsonToErr
          (BrowserMsg.errToJson
            ⟨BrowserMsg.ErrName.ajaxErr 404 "https://u" "not found" "Not Found" none none,
              "remote boom", "rstack"⟩) "ping" "cstack" "fstack").message =
        "BrowserMsg(ping) remote boom" ∧
      (BrowserMsg.jsonToErr
          (BrowserMsg.errToJson
            ⟨BrowserMsg.ErrName.ajaxErr 404 "https://u" "not found" "Not Found" none none,
              "remote boom", "rstack"⟩) "ping" "cstack" "fstack").ctor =
        BrowserMsg.ErrName.ajaxErr 404 "https://u" "not found" "Not Found" none none :=
  ⟨(BrowserMsg.c6_error_marshalling_fidelity
      ⟨BrowserMsg.ErrName.ajaxErr 404 "https://u" "not found" "Not Found" none none,
        "remote boom", "rstack"⟩ "ping" "cstack" "fstack").1,
    (BrowserMsg.c6_error_marshalling_fidelity
      ⟨BrowserMsg.ErrName.ajaxErr 404 "https://u" "not found" "Not Found" none none,
        "remote boom", "rstack"⟩ "ping" "cstack" "fstack").2.2 404 "https://u" "not found"
      "Not Found" none none rfl⟩

/-- C2: an awaited call whose raw reply is not a well-formed response
object (absent or not an object) always rejects with a classified error
whose stack is the sender's envelope stack concatenated with the
receive-side stack, and never consumes anything from the blob store (no
malformed-data error path exists).  When the destination was the
privileged context (`destString` undefined) and the reply is
`undefined`: the platform text "The object could not be cloned." yields
a plain permanent `Error`; the texts "Could not establish connection.
Receiving end does not exist." and "The message port closed before a
response was received." yield the distinct transient kind
`BgNotReadyErr`; any other text yields a generic permanent `Error`
carrying the message name and the raw platform text.  Any other
malformed reply yields the generic `returned(...)` permanent `Error`. -/
theorem BrowserMsg.c2_transport_failure_classification (destString : Option String)
    (name msgStack freshStack : String) (lastErr : Option (Option String))
    (store : BrowserMsg.BlobStore) (r : BrowserMsg.RawReply)
    (hmal : r = BrowserMsg.RawReply.undef ∨ r = BrowserMsg.RawReply.null ∨
      ∃ s, r = BrowserMsg.RawReply.prim s) :
    (∃ e, (BrowserMsg.processRawMsgResponse true destString name msgStack freshStack lastErr
          store r).1 = BrowserMsg.Outcome.rejected e ∧
        e.stack = msgStack ++ "\n\n" ++ freshStack) ∧
      (BrowserMsg.processRawMsgResponse true destString name msgStack freshStack lastErr
          store r).2 = store ∧
      (destString = none ∧ r = BrowserMsg.RawReply.undef →
        (BrowserMsg.lastErrorText lastErr = "The object could not be cloned." →
          (BrowserMsg.processRawMsgResponse true destString name msgStack freshStack lastErr
              store r).1 =
            BrowserMsg.Outcome.rejected ⟨BrowserMsg.ErrName.plainErr,
              "BrowserMsg.sendAwait(" ++ name ++ ") failed with lastError: "
                ++ BrowserMsg.lastErrorText lastErr,
              msgStack ++ "\n\n" ++ freshStack⟩) ∧
        (BrowserMsg.lastErrorText lastErr =
              "Could not establish connection. Receiving end does not exist." ∨
            BrowserMsg.lastErrorText lastErr =
              "The message port closed before a response was received." →
          (BrowserMsg.processRawMsgResponse true destString name msgStack freshStack lastErr
              store r).1 =
            BrowserMsg.Outcome.rejected ⟨BrowserMsg.ErrName.bgNotReady,
              "BgNotReadyErr: BrowserMsg.sendAwait(" ++ name ++ ") failed with lastError: "
                ++ BrowserMsg.lastErrorText lastErr,
              msgStack ++ "\n\n" ++ freshStack⟩) ∧
        (BrowserMsg.lastErrorText lastErr ≠ "The object could not be cloned." ∧
            BrowserMsg.lastErrorText lastErr ≠
              "Could not establish connection. Receiving end does not exist." ∧
            BrowserMsg.lastErrorText lastErr ≠
              "The message port closed before a response was received." →
          (BrowserMsg.processRawMsgResponse true destString name msgStack freshStack lastErr
              store r).1 =
            BrowserMsg.Outcome.rejected ⟨BrowserMsg.ErrName.plainErr,
              "BrowserMsg.sendAwait(" ++ name ++ ") failed with unknown lastError: "
                ++ BrowserMsg.lastErrorText lastErr,
              msgStack ++ "\n\n" ++ freshStack⟩)) ∧
      (¬(destString = none ∧ r = BrowserMsg.RawReply.undef) →
        (BrowserMsg.processRawMsgResponse true destString name msgStack freshStack lastErr
            store r).1 =
          BrowserMsg.Outcome.rejected ⟨BrowserMsg.ErrName.plainErr,
            "BrowserMsg.sendAwait(" ++ name ++ ") returned(" ++ BrowserMsg.strOfReply r
              ++ ") with lastError: " ++ BrowserMsg.lastErrorText lastErr,
            msgStack ++ "\n\n" ++ freshStack⟩) := by
  by_cases hd : destString = none
  all_goals
    rcases hmal with h | h | ⟨s, h⟩ <;> subst h <;>
      by_cases h1 : BrowserMsg.lastErrorText lastErr = "The object could not be cloned." <;>
      by_cases h2 : BrowserMsg.lastErrorText lastErr =
        "Could not establish connection. Receiving end does not exist." <;>
      by_cases h3 : BrowserMsg.lastErrorText lastErr =
        "The message port closed before a response was received." <;>
      simp_all [BrowserMsg.processRawMsgResponse]

/-- C2 witness: with the reply `undefined`, destination the privileged
context and platform text "Could not establish connection. Receiving
end does not exist.", the call rejects with a `BgNotReadyErr`. -/
theorem BrowserMsg.c2_transport_failure_classification_witness :
    (BrowserMsg.processRawMsgResponse true none "ping" "cstack" "fstack"
        (some (some "Could not establish connection. Receiving end does not exist."))
        ⟨0, []⟩ BrowserMsg.RawReply.undef).1 =
      BrowserMsg.Outcome.rejected ⟨BrowserMsg.ErrName.bgNotReady,
        "BgNotReadyErr: BrowserMsg.sendAwait(ping) failed with lastError: "
          ++ BrowserMsg.lastErrorText
            (some (some "Could not establish connection. Receiving end does not exist.")),
        "cstack" ++ "\n\n" ++ "fstack"⟩ :=
  ((BrowserMsg.c2_transport_failure_classification none "ping" "cstack" "fstack"
      (some (some "Could not establish connection. Receiving end does not exist."))
      ⟨0, []⟩ BrowserMsg.RawReply.undef (Or.inl rfl)).2.2.1 ⟨rfl, rfl⟩).2.1
    (Or.inl (by decide))

/-! ### Dispatch lemmas (claim C1) -/

/-- Is `d` a delivery of the envelope `msg` (same message through either
transport, window copies honestly encrypted and acceptably
origined)? -/
def BrowserMsg.deliveryOf (msg : BrowserMsg.RawMsg) (extOrigin : String) :
    BrowserMsg.Delivery → Bool
  | BrowserMsg.Delivery.direct m => decide (m = msg)
  | BrowserMsg.Delivery.window origin e =>
    (decide (origin = "https://mail.google.com") || decide (origin = extOrigin)) &&
      decide (e.raw = msg) && decide (e.uid = msg.uid) &&
      decide (e.toDest = msg.toDest.getD "")

/-- A delivery of an already-processed envelope leaves the context state
untouched: both listeners consult the `processed` set before
dispatching. -/
theorem BrowserMsg.deliverOne_seen (dest extOrigin : String) (depth : Nat)
    (st : BrowserMsg.CtxState) (msg : BrowserMsg.RawMsg) (d : BrowserMsg.Delivery)
    (hof : BrowserMsg.deliveryOf msg extOrigin d = true)
    (hseen : msg.uid ∈ st.processed) :
    BrowserMsg.deliverOne dest extOrigin depth st d = st := by
  cases d with
  | direct m =>
    have hm : m = msg := by simpa [BrowserMsg.deliveryOf] using hof
    rw [hm]
    cases hto : msg.toDest with
    | none => simp [BrowserMsg.deliverOne, BrowserMsg.directListen, hto]
    | some t =>
      simp only [BrowserMsg.deliverOne, BrowserMsg.directListen, hto]
      split_ifs with hc
      · simp [BrowserMsg.handleMsg, hseen]
      · rfl
  | window origin e =>
    simp only [BrowserMsg.deliveryOf, Bool.and_eq_true, Bool.or_eq_true,
      decide_eq_true_eq] at hof
    have huid : e.uid = msg.uid := hof.1.2
    simp only [BrowserMsg.deliverOne, BrowserMsg.listenForWindowMessages]
    split_ifs with h1 h2 <;> first | rfl | exact absurd (huid ▸ hseen) h2

/-- The first delivery of an unseen envelope addressed to this context
invokes the registered handler once and records the uid as processed. -/
theorem BrowserMsg.deliverOne_first (dest extOrigin : String) (depth : Nat)
    (st : BrowserMsg.CtxState) (msg : BrowserMsg.RawMsg) (t : String)
    (d : BrowserMsg.Delivery)
    (hof : BrowserMsg.deliveryOf msg extOrigin d = true)
    (hto : msg.toDest = some t) (ht : t ≠ "") (hmatch : t = dest ∨ t = "broadcast")
    (hreg : msg.name ∈ st.frameHandlers) (hurls : msg.objUrls = [])
    (hnew : msg.uid ∉ st.processed) :
    (BrowserMsg.deliverOne dest extOrigin depth st d).invoked =
        (msg.name, msg.uid) :: st.invoked ∧
      msg.uid ∈ (BrowserMsg.deliverOne dest extOrigin depth st d).processed := by
  have hinv : (BrowserMsg.handleMsg st msg).1.invoked = (msg.name, msg.uid) :: st.invoked := by
    simp [BrowserMsg.handleMsg, hnew, hreg, hurls, BrowserMsg.replaceObjUrlWithBuf]
  have hproc : msg.uid ∈ (BrowserMsg.handleMsg st msg).1.processed := by
    simp [BrowserMsg.handleMsg, hnew, hreg, hurls, BrowserMsg.replaceObjUrlWithBuf,
      List.mem_insert_iff]
  have hh2 : (BrowserMsg.handleMsg st msg).2 = true := by
    simp [BrowserMsg.handleMsg, hnew, hreg, hurls, BrowserMsg.replaceObjUrlWithBuf]
  cases d with
  | direct m =>
    have hm : m = msg := by simpa [BrowserMsg.deliveryOf] using hof
    rw [hm]
    have hstep :
        BrowserMsg.deliverOne dest extOrigin depth st (BrowserMsg.Delivery.direct msg) =
          (BrowserMsg.handleMsg st msg).1 := by
      simp [BrowserMsg.deliverOne, BrowserMsg.directListen, hto, ht, hmatch]
    rw [hstep]
    exact ⟨hinv, hproc⟩
  | window origin e =>
    simp only [BrowserMsg.deliveryOf, Bool.and_eq_true, Bool.or_eq_true,
      decide_eq_true_eq] at hof
    obtain ⟨⟨⟨horigin, hraw⟩, huid⟩, htod⟩ := hof
    have horigin2 : ¬(origin ≠ "https://mail.google.com" ∧ origin ≠ extOrigin) := by
      rcases horigin with h | h <;> simp [h]
    have htod2 : e.toDest = t := by rw [htod, hto]; rfl
    have hmatch2 : e.toDest = dest ∨ e.toDest = "broadcast" := htod2 ▸ hmatch
    have hnew2 : e.uid ∉ st.processed := huid ▸ hnew
    have hdec : BrowserMsg.symDecrypt e = msg := by simp [BrowserMsg.symDecrypt, hraw]
    have hstep :
        BrowserMsg.deliverOne dest extOrigin depth st (BrowserMsg.Delivery.window origin e) =
          (BrowserMsg.handleMsg st msg).1 := by
      simp [BrowserMsg.deliverOne, BrowserMsg.listenForWindowMessages, horigin2, hnew2,
        hmatch2, hdec, hh2]
    rw [hstep]
    exact ⟨hinv, hproc⟩

/-- Once the envelope is processed, any further deliveries of it leave
the context state untouched. -/
theorem BrowserMsg.deliverAll_seen (dest extOrigin : String) (depth : Nat)
    (st : BrowserMsg.CtxState) (msg : BrowserMsg.RawMsg) (ds : List BrowserMsg.Delivery)
    (hds : ∀ d ∈ ds, BrowserMsg.deliveryOf msg extOrigin d = true)
    (hseen : msg.uid ∈ st.processed) :
    BrowserMsg.deliverAll dest extOrigin depth ds st = st := by
  induction ds with
  | nil => rfl
  | cons d rest ih =>
    have h1 := BrowserMsg.deliverOne_seen dest extOrigin depth st msg d
      (hds d (List.mem_cons_self d rest)) hseen
    simp only [BrowserMsg.deliverAll, h1]
    exact ih (fun d hd => hds d (List.mem_cons_of_mem _ hd))

/-- C1 (amended): at a non-privileged context, for any positive number
of deliveries of one envelope — through any mix of the Direct Channel
listener and the Propagation (window-message) listener — whose
destination is truthy and matches this context (or `'broadcast'`),
whose name has a registered frame handler and which carries no object
URLs, the handler is executed exactly once; the two listeners share the
context's dedup ledger.  (The background listener is excluded: it has
no dedup check, see the counterexample.) -/
theorem BrowserMsg.c1_at_most_once_frame_dispatch (dest extOrigin : String) (depth : Nat)
    (st : BrowserMsg.CtxState) (msg : BrowserMsg.RawMsg) (t : String)
    (ds : List BrowserMsg.Delivery)
    (hds : ∀ d ∈ ds, BrowserMsg.deliveryOf msg extOrigin d = true) (hne : ds ≠ [])
    (hto : msg.toDest = some t) (ht : t ≠ "") (hmatch : t = dest ∨ t = "broadcast")
    (hreg : msg.name ∈ st.frameHandlers) (hurls : msg.objUrls = [])
    (hnew : msg.uid ∉ st.processed)
    (hcount : st.invoked.count (msg.name, msg.uid) = 0) :
    (BrowserMsg.deliverAll dest extOrigin depth ds st).invoked.count (msg.name, msg.uid)
      = 1 := by
  obtain ⟨d, rest, rfl⟩ : ∃ d rest, ds = d :: rest := by
    cases ds with
    | nil => exact absurd rfl hne
    | cons d rest => exact ⟨d, rest, rfl⟩
  obtain ⟨hinv, hproc⟩ := BrowserMsg.deliverOne_first dest extOrigin depth st msg t d
    (hds d (List.mem_cons_self d rest)) hto ht hmatch hreg hurls hnew
  simp only [BrowserMsg.deliverAll]
  rw [BrowserMsg.deliverAll_seen dest extOrigin depth _ msg rest
    (fun d hd => hds d (List.mem_cons_of_mem _ hd)) hproc]
  simp [hinv, List.count_cons, hcount]

/-- C1 witness: three deliveries of one broadcast envelope (twice via
the Direct listener, once via the window listener) invoke the handler
exactly once. -/
theorem BrowserMsg.c1_at_most_once_frame_dispatch_witness :
    (BrowserMsg.deliverAll "d" "ext" 0
        [BrowserMsg.Delivery.direct ⟨"ping", [], [], some "d", "u1", ""⟩,
          BrowserMsg.Delivery.window "ext"
            (BrowserMsg.symEncrypt ⟨"ping", [], [], some "d", "u1", ""⟩),
          BrowserMsg.Delivery.direct ⟨"ping", [], [], some "d", "u1", ""⟩]
        ⟨[], ["ping"], ⟨0, []⟩, []⟩).invoked.count ("ping", "u1") = 1 :=
  BrowserMsg.c1_at_most_once_frame_dispatch "d" "ext" 0 ⟨[], ["ping"], ⟨0, []⟩, []⟩
    ⟨"ping", [], [], some "d", "u1", ""⟩ "d" _ (by decide) (by decide) rfl (by decide)
    (Or.inl rfl) (by decide) rfl (by decide) (by decide)

/-- C1 counterexample: the claim extends at-most-once dispatch to the
privileged (background) context, but `bgListen` consults no dedup
ledger: a second delivery of the same envelope id to the background
listener re-invokes the registered handler, so after two deliveries the
handler has run twice, not once. -/
theorem BrowserMsg.c1_bg_redispatch_counterexample :
    (BrowserMsg.bgListen
        (BrowserMsg.bgListen ⟨["ping"], ⟨0, []⟩, []⟩
          ⟨"ping", [], [], none, "u1", ""⟩).1
        ⟨"ping", [], [], none, "u1", ""⟩).1.invoked.count ("ping", "u1") = 2 := by
  decide

/-! ### Blob store and codec lemmas (claim C5) -/

/-- Looking up an unconsumed entry succeeds with its bytes. -/
theorem BrowserMsg.consumeList_spec (l : List BrowserMsg.BlobEntry) (h : Nat) (b : List Nat)
    (hnd : (l.map (fun e => e.1)).Nodup) (hmem : (h, b, false) ∈ l) :
    BrowserMsg.consumeList l h = some b := by
  induction l with
  | nil => cases hmem
  | cons e rest ih =>
    obtain ⟨h0, b0, c0⟩ := e
    rcases List.mem_cons.mp hmem with heq | hmem2
    · obtain ⟨rfl, rfl, rfl⟩ : h0 = h ∧ b0 = b ∧ c0 = false := by
        have := heq.symm
        simp only [Prod.mk.injEq] at this
        exact ⟨this.1, this.2.1, this.2.2⟩
      simp [BrowserMsg.consumeList]
    · have hne : h0 ≠ h := by
        intro he
        subst he
        have : h0 ∈ rest.map (fun e => e.1) :=
          List.mem_map.mpr ⟨(h0, b, false), hmem2, rfl⟩
        exact (List.nodup_cons.mp (by simpa using hnd)).1 this
      have hrest := ih (List.nodup_cons.mp (by simpa using hnd)).2 hmem2
      simp [BrowserMsg.consumeList, hne, hrest]

/-- A consumed entry can never be looked up again. -/
theorem BrowserMsg.consumeList_of_consumed (l : List BrowserMsg.BlobEntry) (h : Nat)
    (b : List Nat) (hnd : (l.map (fun e => e.1)).Nodup) (hmem : (h, b, true) ∈ l) :
    BrowserMsg.consumeList l h = none := by
  induction l with
  | nil => cases hmem
  | cons e rest ih =>
    obtain ⟨h0, b0, c0⟩ := e
    rcases List.mem_cons.mp hmem with heq | hmem2
    · obtain ⟨rfl, rfl, rfl⟩ : h0 = h ∧ b0 = b ∧ c0 = true := by
        have := heq.symm
        simp only [Prod.mk.injEq] at this
        exact ⟨this.1, this.2.1, this.2.2⟩
      simp [BrowserMsg.consumeList]
    · have hne : h0 ≠ h := by
        intro he
        subst he
        have : h0 ∈ rest.map (fun e => e.1) :=
          List.mem_map.mpr ⟨(h0, b, true), hmem2, rfl⟩
        exact (List.nodup_cons.mp (by simpa using hnd)).1 this
      have hrest := ih (List.nodup_cons.mp (by simpa using hnd)).2 hmem2
      simp [BrowserMsg.consumeList, hne, hrest]

/-- Marking keeps the handles (first components) unchanged. -/
theorem BrowserMsg.markConsumed_map_fst (l : List BrowserMsg.BlobEntry) (h : Nat) :
    (BrowserMsg.markConsumed l h).map (fun e => e.1) = l.map (fun e => e.1) := by
  induction l with
  | nil => rfl
  | cons e rest ih =>
    obtain ⟨h0, b0, c0⟩ := e
    by_cases he : h0 = h <;> simp [BrowserMsg.markConsumed, he, ih]

/-- Entries with a different handle survive marking untouched. -/
theorem BrowserMsg.mem_markConsumed_of_ne (l : List BrowserMsg.BlobEntry) (h : Nat)
    (e : BrowserMsg.BlobEntry) (hmem : e ∈ l) (hne : e.1 ≠ h) :
    e ∈ BrowserMsg.markConsumed l h := by
  induction l with
  | nil => cases hmem
  | cons e0 rest ih =>
    obtain ⟨h0, b0, c0⟩ := e0
    rcases List.mem_cons.mp hmem with heq | hmem2
    · subst heq
      by_cases he : h0 = h
      · exact absurd he hne
      · simp [BrowserMsg.markConsumed, he]
    · by_cases he : h0 = h <;> simp [BrowserMsg.markConsumed, he]
      · exact Or.inr hmem2
      · exact Or.inr (ih hmem2)

/-- Marking an unconsumed entry records it as consumed. -/
theorem BrowserMsg.mem_markConsumed_self (l : List BrowserMsg.BlobEntry) (h : Nat)
    (b : List Nat) (hnd : (l.map (fun e => e.1)).Nodup) (hmem : (h, b, false) ∈ l) :
    (h, b, true) ∈ BrowserMsg.markConsumed l h := by
  induction l with
  | nil => cases hmem
  | cons e rest ih =>
    obtain ⟨h0, b0, c0⟩ := e
    rcases List.mem_cons.mp hmem with heq | hmem2
    · obtain ⟨rfl, rfl, rfl⟩ : h0 = h ∧ b0 = b ∧ c0 = false := by
        have := heq.symm
        simp only [Prod.mk.injEq] at this
        exact ⟨this.1, this.2.1, this.2.2⟩
      simp [BrowserMsg.markConsumed]
    · have hne : h0 ≠ h := by
        intro he
        subst he
        have : h0 ∈ rest.map (fun e => e.1) :=
          List.mem_map.mpr ⟨(h0, b, false), hmem2, rfl⟩
        exact (List.nodup_cons.mp (by simpa using hnd)).1 this
      have hrest := ih (List.nodup_cons.mp (by simpa using hnd)).2 hmem2
      simp [BrowserMsg.markConsumed, hne]
      exact Or.inr hrest

/-- Every marked entry comes from an entry of the original list with the
same handle and bytes. -/
theorem BrowserMsg.markConsumed_entry_source (l : List BrowserMsg.BlobEntry) (h : Nat)
    (e : BrowserMsg.BlobEntry) (hmem : e ∈ BrowserMsg.markConsumed l h) :
    ∃ c, (e.1, e.2.1, c) ∈ l := by
  induction l with
  | nil => cases hmem
  | cons e0 rest ih =>
    obtain ⟨h0, b0, c0⟩ := e0
    by_cases he : h0 = h
    · simp only [BrowserMsg.markConsumed, if_pos he] at hmem
      rcases List.mem_cons.mp hmem with heq | hmem2
      · exact ⟨c0, by rw [heq]; simp⟩
      · exact ⟨e.2.2, List.mem_cons_of_mem _ (by simpa using hmem2)⟩
    · simp only [BrowserMsg.markConsumed, if_neg he] at hmem
      rcases List.mem_cons.mp hmem with heq | hmem2
      · exact ⟨c0, by rw [heq]; simp⟩
      · obtain ⟨c, hc⟩ := ih hmem2
        exact ⟨c, List.mem_cons_of_mem _ hc⟩

/-- `consume` on a well-formed store containing the unconsumed entry
`(h, b)` succeeds with `b` and marks the entry. -/
theorem BrowserMsg.BlobStore.consume_spec (st : BrowserMsg.BlobStore) (h : Nat)
    (b : List Nat) (hwf : st.Wf) (hmem : (h, b, false) ∈ st.blobs) :
    st.consume h = some (b, ⟨st.next, BrowserMsg.markConsumed st.blobs h⟩) := by
  have hc := BrowserMsg.consumeList_spec st.blobs h b hwf.1 hmem
  simp [BrowserMsg.BlobStore.consume, hc]

/-- Marking preserves well-formedness. -/
theorem BrowserMsg.BlobStore.wf_mark (st : BrowserMsg.BlobStore) (h : Nat) (hwf : st.Wf) :
    BrowserMsg.BlobStore.Wf ⟨st.next, BrowserMsg.markConsumed st.blobs h⟩ := by
  constructor
  · rw [BrowserMsg.markConsumed_map_fst]
    exact hwf.1
  · intro e hmem
    obtain ⟨c, hc⟩ := BrowserMsg.markConsumed_entry_source st.blobs h e hmem
    exact hwf.2 (e.1, e.2.1, c) hc

/-- Creating a blob preserves well-formedness. -/
theorem BrowserMsg.BlobStore.wf_create (st : BrowserMsg.BlobStore) (b : List Nat)
    (hwf : st.Wf) : (st.create b).2.Wf := by
  constructor
  · simp only [BrowserMsg.BlobStore.create, List.map_cons]
    refine List.nodup_cons.mpr ⟨?_, hwf.1⟩
    intro hmem
    obtain ⟨e, he, heq⟩ := List.mem_map.mp hmem
    exact absurd (heq ▸ hwf.2 e he) (lt_irrefl _)
  · intro e hmem
    simp only [BrowserMsg.BlobStore.create] at hmem
    rcases List.mem_cons.mp hmem with heq | hmem2
    · subst heq
      exact Nat.lt_succ_self _
    · exact Nat.lt_succ_of_lt (hwf.2 _ hmem2)

/-- Unfolding lemma: encoding a buffer field. -/
theorem BrowserMsg.encode_cons_buf (n : String) (b : List Nat) (rest : BrowserMsg.Payload)
    (st : BrowserMsg.BlobStore) :
    BrowserMsg.replaceBufWithObjUrlInplace ((n, BrowserMsg.FieldVal.buf b) :: rest) st =
      ((n, BrowserMsg.FieldVal.undef) ::
          (BrowserMsg.replaceBufWithObjUrlInplace rest (st.create b).2).1,
        (n, st.next) :: (BrowserMsg.replaceBufWithObjUrlInplace rest (st.create b).2).2.1,
        (BrowserMsg.replaceBufWithObjUrlInplace rest (st.create b).2).2.2) := rfl

/-- Unfolding lemma: encoding an `undefined` field. -/
theorem BrowserMsg.encode_cons_undef (n : String) (rest : BrowserMsg.Payload)
    (st : BrowserMsg.BlobStore) :
    BrowserMsg.replaceBufWithObjUrlInplace ((n, BrowserMsg.FieldVal.undef) :: rest) st =
      ((n, BrowserMsg.FieldVal.undef) :: (BrowserMsg.replaceBufWithObjUrlInplace rest st).1,
        (BrowserMsg.replaceBufWithObjUrlInplace rest st).2.1,
        (BrowserMsg.replaceBufWithObjUrlInplace rest st).2.2) := rfl

/-- Unfolding lemma: encoding a non-binary field. -/
theorem BrowserMsg.encode_cons_other (n s : String) (rest : BrowserMsg.Payload)
    (st : BrowserMsg.BlobStore) :
    BrowserMsg.replaceBufWithObjUrlInplace ((n, BrowserMsg.FieldVal.other s) :: rest) st =
      ((n, BrowserMsg.FieldVal.other s) :: (BrowserMsg.replaceBufWithObjUrlInplace rest st).1,
        (BrowserMsg.replaceBufWithObjUrlInplace rest st).2.1,
        (BrowserMsg.replaceBufWithObjUrlInplace rest st).2.2) := rfl

/-- Full characterization of the encoder on a well-formed store: the
store stays well formed and keeps every old entry, the payload has
exactly its buffer fields replaced by `undefined`, and the recorded
object URLs carry one fresh, pairwise-distinct handle per buffer field,
under that field's name, with the field's bytes stored unconsumed. -/
theorem BrowserMsg.encode_spec (p : BrowserMsg.Payload) (st : BrowserMsg.BlobStore)
    (hwf : st.Wf) :
    (BrowserMsg.replaceBufWithObjUrlInplace p st).2.2.Wf ∧
      st.next ≤ (BrowserMsg.replaceBufWithObjUrlInplace p st).2.2.next ∧
      (∀ e ∈ st.blobs, e ∈ (BrowserMsg.replaceBufWithObjUrlInplace p st).2.2.blobs) ∧
      (BrowserMsg.replaceBufWithObjUrlInplace p st).1 = BrowserMsg.stripAt p ∧
      (∀ u ∈ (BrowserMsg.replaceBufWithObjUrlInplace p st).2.1, st.next ≤ u.2) ∧
      ((BrowserMsg.replaceBufWithObjUrlInplace p st).2.1.map Prod.snd).Nodup ∧
      List.Forall₂
        (fun (u : String × Nat) (nb : String × List Nat) =>
          u.1 = nb.1 ∧ (u.2, nb.2, false) ∈ (BrowserMsg.replaceBufWithObjUrlInplace p st).2.2.blobs)
        (BrowserMsg.replaceBufWithObjUrlInplace p st).2.1 (BrowserMsg.bufFields p) := by
  induction p generalizing st with
  | nil =>
    refine ⟨hwf, le_refl _, fun e he => he, rfl, ?_, ?_, ?_⟩
    · intro u hu
      cases hu
    · simp [BrowserMsg.replaceBufWithObjUrlInplace]
    · exact List.Forall₂.nil
  | cons nv rest ih =>
    obtain ⟨n, v⟩ := nv
    cases v with
    | buf b =>
      have hwf1 : (st.create b).2.Wf := BrowserMsg.BlobStore.wf_create st b hwf
      obtain ⟨iwf, ile, imem, istrip, ige, inodup, ifa⟩ := ih (st.create b).2 hwf1
      have hnext1 : (st.create b).2.next = st.next + 1 := rfl
      have hhead : (st.next, b, false) ∈ (st.create b).2.blobs := List.mem_cons_self _ _
      rw [BrowserMsg.encode_cons_buf]
      refine ⟨iwf, ?_, ?_, ?_, ?_, ?_, ?_⟩
      · exact le_trans (Nat.le_succ st.next) ile
      · intro e he
        exact imem e (List.mem_cons_of_mem _ he)
      · simp [BrowserMsg.stripAt, BrowserMsg.strip1] at istrip ⊢
        exact istrip
      · intro u hu
        rcases List.mem_cons.mp hu with rfl | hu2
        · exact le_refl _
        · exact le_trans (Nat.le_succ st.next) (ige u hu2)
      · refine List.nodup_cons.mpr ⟨?_, inodup⟩
        intro hmem
        obtain ⟨u, hu, hequ⟩ := List.mem_map.mp hmem
        have h1 : st.next + 1 ≤ u.2 := ige u hu
        omega
      · exact List.Forall₂.cons ⟨rfl, imem _ hhead⟩ ifa
    | undef =>
      obtain ⟨iwf, ile, imem, istrip, ige, inodup, ifa⟩ := ih st hwf
      rw [BrowserMsg.encode_cons_undef]
      refine ⟨iwf, ile, imem, ?_, ige, inodup, ?_⟩
      · simp [BrowserMsg.stripAt, BrowserMsg.strip1] at istrip ⊢
        exact istrip
      · simpa [BrowserMsg.bufFields] using ifa
    | other s =>
      obtain ⟨iwf, ile, imem, istrip, ige, inodup, ifa⟩ := ih st hwf
      rw [BrowserMsg.encode_cons_other]
      refine ⟨iwf, ile, imem, ?_, ige, inodup, ?_⟩
      · simp [BrowserMsg.stripAt, BrowserMsg.strip1] at istrip ⊢
        exact istrip
      · simpa [BrowserMsg.bufFields] using ifa

/-- A `Forall₂` of unconsumed entries survives marking a handle none of
the urls use. -/
theorem BrowserMsg.forall2_mark (urls : List (String × Nat)) (bs : List (String × List Nat))
    (l : List BrowserMsg.BlobEntry) (h : Nat)
    (hfa : List.Forall₂ (fun u nb => u.1 = nb.1 ∧ (u.2, nb.2, false) ∈ l) urls bs)
    (hne : ∀ u ∈ urls, u.2 ≠ h) :
    List.Forall₂
      (fun u nb => u.1 = nb.1 ∧ (u.2, nb.2, false) ∈ BrowserMsg.markConsumed l h)
      urls bs := by
  induction hfa with
  | nil => exact List.Forall₂.nil
  | @cons a b l1 l2 hr hrest ih =>
    exact List.Forall₂.cons
      ⟨hr.1, BrowserMsg.mem_markConsumed_of_ne l h _ hr.2 (hne a (List.mem_cons_self _ _))⟩
      (ih (fun u hu => hne u (List.mem_cons_of_mem _ hu)))

/-- Decoding a list of urls whose handles are distinct and stored
unconsumed succeeds, writes each url's bytes into its field, marks every
consumed handle, and leaves unrelated entries alone. -/
theorem BrowserMsg.decode_spec (urls : List (String × Nat)) (bs : List (String × List Nat))
    (q : BrowserMsg.Payload) (st : BrowserMsg.BlobStore) (hwf : st.Wf)
    (hnd : (urls.map Prod.snd).Nodup)
    (hfa : List.Forall₂ (fun u nb => u.1 = nb.1 ∧ (u.2, nb.2, false) ∈ st.blobs) urls bs) :
    ∃ st', BrowserMsg.replaceObjUrlWithBuf q urls st =
        some (BrowserMsg.applySets q bs, st') ∧
      st'.Wf ∧
      (∀ e ∈ st.blobs, e.1 ∉ urls.map Prod.snd → e ∈ st'.blobs) ∧
      List.Forall₂ (fun (u : String × Nat) (nb : String × List Nat) =>
        (u.2, nb.2, true) ∈ st'.blobs) urls bs := by
  induction urls generalizing bs q st with
  | nil =>
    cases hfa
    exact ⟨st, rfl, hwf, fun e he _ => he, List.Forall₂.nil⟩
  | cons u urls2 ih =>
    obtain ⟨n, h⟩ := u
    cases bs with
    | nil => cases hfa
    | cons nb bs2 =>
      rw [List.forall₂_cons] at hfa
      obtain ⟨hhead, htail⟩ := hfa
      have hndc : h ∉ urls2.map Prod.snd ∧ (urls2.map Prod.snd).Nodup := by
        simpa only [List.map_cons, List.nodup_cons] using hnd
      have hcons := BrowserMsg.BlobStore.consume_spec st h nb.2 hwf hhead.2
      have hwf1 := BrowserMsg.BlobStore.wf_mark st h hwf
      have hne : ∀ u2 ∈ urls2, u2.2 ≠ h := by
        intro u2 hu2 he
        exact hndc.1 (List.mem_map.mpr ⟨u2, hu2, he⟩)
      have hfa1 := BrowserMsg.forall2_mark urls2 bs2 st.blobs h htail hne
      obtain ⟨st', hdec, hwf', hpres, htrue⟩ :=
        ih bs2 (BrowserMsg.setField q n (BrowserMsg.FieldVal.buf nb.2))
          ⟨st.next, BrowserMsg.markConsumed st.blobs h⟩ hwf1 hndc.2 hfa1
      have hstep : BrowserMsg.replaceObjUrlWithBuf q ((n, h) :: urls2) st =
          BrowserMsg.replaceObjUrlWithBuf
            (BrowserMsg.setField q n (BrowserMsg.FieldVal.buf nb.2)) urls2
            ⟨st.next, BrowserMsg.markConsumed st.blobs h⟩ := by
        simp [BrowserMsg.replaceObjUrlWithBuf, hcons]
      have happ : BrowserMsg.applySets q (nb :: bs2) =
          BrowserMsg.applySets (BrowserMsg.setField q n (BrowserMsg.FieldVal.buf nb.2)) bs2 := by
        obtain ⟨m, b⟩ := nb
        have hm : n = m := hhead.1
        subst hm
        rfl
      have hnotin : h ∉ urls2.map Prod.snd := by
        intro hmem
        obtain ⟨u2, hu2, hequ⟩ := List.mem_map.mp hmem
        exact hne u2 hu2 hequ
      refine ⟨st', ?_, hwf', ?_, ?_⟩
      · rw [hstep, hdec, happ]
      · intro e he henot
        have hne2 : e.1 ≠ h := by
          intro heq
          exact henot (by simp [heq])
        have he1 : e ∈ BrowserMsg.markConsumed st.blobs h :=
          BrowserMsg.mem_markConsumed_of_ne st.blobs h e he hne2
        refine hpres e he1 ?_
        intro hmem
        exact henot (by simp [hmem])
      · refine List.Forall₂.cons ?_ htrue
        have h1 : (h, nb.2, true) ∈ BrowserMsg.markConsumed st.blobs h :=
          BrowserMsg.mem_markConsumed_self st.blobs h nb.2 hwf.1 hhead.2
        exact hpres (h, nb.2, true) h1 hnotin

/-- Writing into the head field. -/
theorem BrowserMsg.setField_head (n : String) (v w : BrowserMsg.FieldVal)
    (q : BrowserMsg.Payload) :
    BrowserMsg.setField ((n, v) :: q) n w = (n, w) :: q := by
  simp [BrowserMsg.setField]

/-- Writing into a field below a differently-named head. -/
theorem BrowserMsg.setField_cons_ne (m n : String) (v w : BrowserMsg.FieldVal)
    (q : BrowserMsg.Payload) (h : m ≠ n) :
    BrowserMsg.setField ((m, v) :: q) n w = (m, v) :: BrowserMsg.setField q n w := by
  simp [BrowserMsg.setField, h]

/-- Applying writes that never touch the head name commutes with the
head. -/
theorem BrowserMsg.applySets_cons_not_mem (n : String) (v : BrowserMsg.FieldVal)
    (q : BrowserMsg.Payload) (pairs : List (String × List Nat))
    (h : ∀ x ∈ pairs, x.1 ≠ n) :
    BrowserMsg.applySets ((n, v) :: q) pairs = (n, v) :: BrowserMsg.applySets q pairs := by
  induction pairs generalizing q with
  | nil => rfl
  | cons x rest ih =>
    obtain ⟨m, b⟩ := x
    have hmn : n ≠ m := fun he => h (m, b) (List.mem_cons_self _ _) he.symm
    show BrowserMsg.applySets
        (BrowserMsg.setField ((n, v) :: q) m (BrowserMsg.FieldVal.buf b)) rest = _
    rw [BrowserMsg.setField_cons_ne n m v (BrowserMsg.FieldVal.buf b) q hmn]
    exact ih (BrowserMsg.setField q m (BrowserMsg.FieldVal.buf b))
      (fun x hx => h x (List.mem_cons_of_mem _ hx))

/-- Buffer-field names are field names. -/
theorem BrowserMsg.bufFields_name_mem (p : BrowserMsg.Payload) :
    ∀ x ∈ BrowserMsg.bufFields p, x.1 ∈ p.map Prod.fst := by
  induction p with
  | nil => intro x hx; cases hx
  | cons nv rest ih =>
    obtain ⟨n, v⟩ := nv
    intro x hx
    cases v with
    | buf b =>
      rcases List.mem_cons.mp hx with heq | hx2
      · simp [heq]
      · simp [ih x hx2]
    | undef => simp [ih x hx]
    | other s => simp [ih x hx]

/-- Writing every buffer field's bytes back into the stripped payload
restores the payload, field for field. -/
theorem BrowserMsg.applySets_restore (p : BrowserMsg.Payload)
    (hnd : (p.map Prod.fst).Nodup) :
    BrowserMsg.applySets (BrowserMsg.stripAt p) (BrowserMsg.bufFields p) = p := by
  induction p with
  | nil => rfl
  | cons nv rest ih =>
    obtain ⟨n, v⟩ := nv
    have hndc : n ∉ rest.map Prod.fst ∧ (rest.map Prod.fst).Nodup := by
      simpa only [List.map_cons, List.nodup_cons] using hnd
    have hne : ∀ x ∈ BrowserMsg.bufFields rest, x.1 ≠ n := by
      intro x hx he
      exact hndc.1 (he ▸ BrowserMsg.bufFields_name_mem rest x hx)
    cases v with
    | buf b =>
      show BrowserMsg.applySets ((n, BrowserMsg.FieldVal.undef) :: BrowserMsg.stripAt rest)
        ((n, b) :: BrowserMsg.bufFields rest) = _
      show BrowserMsg.applySets
        (BrowserMsg.setField ((n, BrowserMsg.FieldVal.undef) :: BrowserMsg.stripAt rest) n
          (BrowserMsg.FieldVal.buf b)) (BrowserMsg.bufFields rest) = _
      rw [BrowserMsg.setField_head, BrowserMsg.applySets_cons_not_mem n _ _ _ hne,
        ih hndc.2]
    | undef =>
      show BrowserMsg.applySets ((n, BrowserMsg.FieldVal.undef) :: BrowserMsg.stripAt rest)
        (BrowserMsg.bufFields rest) = _
      rw [BrowserMsg.applySets_cons_not_mem n _ _ _ hne, ih hndc.2]
    | other s =>
      show BrowserMsg.applySets ((n, BrowserMsg.FieldVal.other s) :: BrowserMsg.stripAt rest)
        (BrowserMsg.bufFields rest) = _
      rw [BrowserMsg.applySets_cons_not_mem n _ _ _ hne, ih hndc.2]

/-- First components agree along a `Forall₂` that equates them. -/
theorem BrowserMsg.forall2_fst_eq (urls : List (String × Nat)) (bs : List (String × List Nat))
    (R : (String × Nat) → (String × List Nat) → Prop)
    (hfa : List.Forall₂ R urls bs) (himp : ∀ u nb, R u nb → u.1 = nb.1) :
    urls.map Prod.fst = bs.map Prod.fst := by
  induction hfa with
  | nil => rfl
  | @cons a b l1 l2 hr hrest ih =>
    simp only [List.map_cons, himp a b hr, ih]

/-- A left member of a `Forall₂` has a related right member. -/
theorem BrowserMsg.forall2_exists_right (urls : List (String × Nat))
    (bs : List (String × List Nat)) (R : (String × Nat) → (String × List Nat) → Prop)
    (hfa : List.Forall₂ R urls bs) (u : String × Nat) (hu : u ∈ urls) :
    ∃ nb ∈ bs, R u nb := by
  induction hfa with
  | nil => cases hu
  | @cons a b l1 l2 hr hrest ih =>
    rcases List.mem_cons.mp hu with rfl | hu2
    · exact ⟨b, List.mem_cons_self _ _, hr⟩
    · obtain ⟨nb, hnb, hrnb⟩ := ih hu2
      exact ⟨nb, List.mem_cons_of_mem _ hnb, hrnb⟩

/-- C5: encoding a payload replaces exactly its buffer-valued top-level
fields with an absent value, recording one fresh (previously unknown),
pairwise-distinct handle per such field under the field's name; decoding
the result with those handles restores the original payload byte for
byte, after which every recorded handle is invalidated (a second consume
fails); and under duplicate delivery the dedup check in `handleMsg` runs
before decoding, so a duplicate leaves the context (blob store included)
untouched. -/
theorem BrowserMsg.c5_binary_indirection_roundtrip (p : BrowserMsg.Payload)
    (st : BrowserMsg.BlobStore) (hwf : st.Wf) (hnd : (p.map Prod.fst).Nodup) :
    (BrowserMsg.replaceBufWithObjUrlInplace p st).1 = BrowserMsg.stripAt p ∧
      (BrowserMsg.replaceBufWithObjUrlInplace p st).2.1.map Prod.fst =
        (BrowserMsg.bufFields p).map Prod.fst ∧
      ((BrowserMsg.replaceBufWithObjUrlInplace p st).2.1.map Prod.snd).Nodup ∧
      (∀ u ∈ (BrowserMsg.replaceBufWithObjUrlInplace p st).2.1,
        u.2 ∉ st.blobs.map (fun e => e.1)) ∧
      (∃ st', BrowserMsg.replaceObjUrlWithBuf (BrowserMsg.replaceBufWithObjUrlInplace p st).1
          (BrowserMsg.replaceBufWithObjUrlInplace p st).2.1
          (BrowserMsg.replaceBufWithObjUrlInplace p st).2.2 = some (p, st') ∧
        ∀ u ∈ (BrowserMsg.replaceBufWithObjUrlInplace p st).2.1, st'.consume u.2 = none) ∧
      (∀ (ctx : BrowserMsg.CtxState) (msg : BrowserMsg.RawMsg), msg.uid ∈ ctx.processed →
        BrowserMsg.handleMsg ctx msg = (ctx, false)) := by
  obtain ⟨hwf2, hle, hmem, hstrip, hge, hnodup, hfa⟩ := BrowserMsg.encode_spec p st hwf
  refine ⟨hstrip, ?_, hnodup, ?_, ?_, ?_⟩
  · exact BrowserMsg.forall2_fst_eq _ _ _ hfa (fun u nb hr => hr.1)
  · intro u hu hmem2
    obtain ⟨e, he, heq⟩ := List.mem_map.mp hmem2
    have h1 := hwf.2 e he
    have h2 := hge u hu
    omega
  · obtain ⟨st', hdec, hwf', hpres, htrue⟩ :=
      BrowserMsg.decode_spec (BrowserMsg.replaceBufWithObjUrlInplace p st).2.1
        (BrowserMsg.bufFields p) (BrowserMsg.replaceBufWithObjUrlInplace p st).1
        (BrowserMsg.replaceBufWithObjUrlInplace p st).2.2 hwf2 hnodup hfa
    refine ⟨st', ?_, ?_⟩
    · rw [hdec, hstrip, BrowserMsg.applySets_restore p hnd]
    · intro u hu
      obtain ⟨nb, hnb, hr⟩ := BrowserMsg.forall2_exists_right _ _ _ htrue u hu
      have hcl := BrowserMsg.consumeList_of_consumed st'.blobs u.2 nb.2 hwf'.1 hr
      simp [BrowserMsg.BlobStore.consume, hcl]
  · intro ctx msg h
    simp [BrowserMsg.handleMsg, h]

/-- C5 witness: a concrete payload with one binary field round-trips
through encode/decode. -/
theorem BrowserMsg.c5_binary_indirection_roundtrip_witness :
    ∃ st', BrowserMsg.replaceObjUrlWithBuf
        (BrowserMsg.replaceBufWithObjUrlInplace
          [("a", BrowserMsg.FieldVal.buf [1, 2, 3]), ("b", BrowserMsg.FieldVal.other "x")]
          ⟨0, []⟩).1
        (BrowserMsg.replaceBufWithObjUrlInplace
          [("a", BrowserMsg.FieldVal.buf [1, 2, 3]), ("b", BrowserMsg.FieldVal.other "x")]
          ⟨0, []⟩).2.1
        (BrowserMsg.replaceBufWithObjUrlInplace
          [("a", BrowserMsg.FieldVal.buf [1, 2, 3]), ("b", BrowserMsg.FieldVal.other "x")]
          ⟨0, []⟩).2.2 =
      some ([("a", BrowserMsg.FieldVal.buf [1, 2, 3]), ("b", BrowserMsg.FieldVal.other "x")],
        st') ∧
      ∀ u ∈ (BrowserMsg.replaceBufWithObjUrlInplace
          [("a", BrowserMsg.FieldVal.buf [1, 2, 3]), ("b", BrowserMsg.FieldVal.other "x")]
          ⟨0, []⟩).2.1, st'.consume u.2 = none :=
  (BrowserMsg.c5_binary_indirection_roundtrip
    [("a", BrowserMsg.FieldVal.buf [1, 2, 3]), ("b", BrowserMsg.FieldVal.other "x")]
    ⟨0, []⟩ ⟨by simp, by simp⟩ (by simp)).2.2.2.2.1

/-! ### Bypass vs transport (claim C4) -/

/-- C4 counterexample: for a background handler that fails with a plain
`Error` "boom", the in-process bypass rejects with the original error
while the transport path rejects with the reconstructed error whose
message is prefixed with `BrowserMsg(ping)`; the observable results are
not identical, refuting the claimed equivalence. -/
theorem BrowserMsg.c4_bypass_divergence_counterexample :
    BrowserMsg.sendAwaitBypass
        (some (BrowserMsg.HandlerOutcome.fail ⟨BrowserMsg.ErrName.plainErr, "boom", "hstack"⟩))
        "ping" "tf" ≠
      (BrowserMsg.transportBgCall
        (some (BrowserMsg.HandlerOutcome.fail ⟨BrowserMsg.ErrName.plainErr, "boom", "hstack"⟩))
        "ping" "cstack" "fstack" ⟨0, []⟩).1 := by
  decide

/-- C4 (amended): the privileged self-call bypass preserves the
transport path's *success* results — the resolved value is identical for
non-object results always and for object results whenever the payload's
field names are distinct and the blob store is well formed — but not its
*error* results: on handler failure the bypass rejects with the
handler's original error while the transport path rejects with the
`jsonToErr`-reconstructed error (message prefixed with the message
name); and for an unregistered name the bypass raises an in-process
TypeError while the transport path rejects with a classified
`BgNotReadyErr`. -/
theorem BrowserMsg.c4_bypass_success_equivalence (handlerFor : Option BrowserMsg.HandlerOutcome)
    (name msgStack freshStack tfStack : String) (store : BrowserMsg.BlobStore)
    (hwf : store.Wf) :
    (∀ v, handlerFor = some (BrowserMsg.HandlerOutcome.ok v) →
      (∀ p, v ≠ BrowserMsg.ResVal.payload p) →
      (BrowserMsg.transportBgCall handlerFor name msgStack freshStack store).1 =
          BrowserMsg.Outcome.resolved v ∧
        BrowserMsg.sendAwaitBypass handlerFor name tfStack = BrowserMsg.Outcome.resolved v) ∧
      (∀ p, handlerFor = some (BrowserMsg.HandlerOutcome.ok (BrowserMsg.ResVal.payload p)) →
        (p.map Prod.fst).Nodup →
        (BrowserMsg.transportBgCall handlerFor name msgStack freshStack store).1 =
            BrowserMsg.Outcome.resolved (BrowserMsg.ResVal.payload p) ∧
          BrowserMsg.sendAwaitBypass handlerFor name tfStack =
            BrowserMsg.Outcome.resolved (BrowserMsg.ResVal.payload p)) ∧
      (∀ e, handlerFor = some (BrowserMsg.HandlerOutcome.fail e) →
        BrowserMsg.sendAwaitBypass handlerFor name tfStack = BrowserMsg.Outcome.rejected e ∧
          (BrowserMsg.transportBgCall handlerFor name msgStack freshStack store).1 =
            BrowserMsg.Outcome.rejected
              (BrowserMsg.jsonToErr (BrowserMsg.errToJson e) name msgStack freshStack)) ∧
      (handlerFor = none →
        BrowserMsg.sendAwaitBypass handlerFor name tfStack =
            BrowserMsg.Outcome.rejected
              ⟨BrowserMsg.ErrName.typeErr, "handler is not a function: " ++ name, tfStack⟩ ∧
          ∃ e, (BrowserMsg.transportBgCall handlerFor name msgStack freshStack store).1 =
              BrowserMsg.Outcome.rejected e ∧
            e.ctor = BrowserMsg.ErrName.bgNotReady) := by
  refine ⟨?_, ?_, ?_, ?_⟩
  · rintro v rfl hnp
    cases v with
    | undef =>
      exact ⟨by simp [BrowserMsg.transportBgCall, BrowserMsg.processRawMsgResponse],
        by simp [BrowserMsg.sendAwaitBypass]⟩
    | prim s =>
      exact ⟨by simp [BrowserMsg.transportBgCall, BrowserMsg.processRawMsgResponse],
        by simp [BrowserMsg.sendAwaitBypass]⟩
    | payload p => exact absurd rfl (hnp p)
  · rintro p rfl hnd
    obtain ⟨hwf2, hle, hmem, hstrip, hge, hnodup, hfa⟩ := BrowserMsg.encode_spec p store hwf
    obtain ⟨st', hdec, hwf', hpres, htrue⟩ :=
      BrowserMsg.decode_spec (BrowserMsg.replaceBufWithObjUrlInplace p store).2.1
        (BrowserMsg.bufFields p) (BrowserMsg.replaceBufWithObjUrlInplace p store).1
        (BrowserMsg.replaceBufWithObjUrlInplace p store).2.2 hwf2 hnodup hfa
    have hdec2 : BrowserMsg.replaceObjUrlWithBuf
        (BrowserMsg.replaceBufWithObjUrlInplace p store).1
        (BrowserMsg.replaceBufWithObjUrlInplace p store).2.1
        (BrowserMsg.replaceBufWithObjUrlInplace p store).2.2 = some (p, st') := by
      rw [hdec, hstrip, BrowserMsg.applySets_restore p hnd]
    refine ⟨?_, by simp [BrowserMsg.sendAwaitBypass]⟩
    simp [BrowserMsg.transportBgCall, BrowserMsg.processRawMsgResponse, hdec2]
  · rintro e rfl
    exact ⟨by simp [BrowserMsg.sendAwaitBypass],
      by simp [BrowserMsg.transportBgCall, BrowserMsg.processRawMsgResponse]⟩
  · rintro rfl
    refine ⟨by simp [BrowserMsg.sendAwaitBypass], ?_⟩
    refine ⟨⟨BrowserMsg.ErrName.bgNotReady,
      "BgNotReadyErr: BrowserMsg.sendAwait(" ++ name
        ++ ") failed with lastError: The message port closed before a response was received.",
      msgStack ++ "\n\n" ++ freshStack⟩, ?_, rfl⟩
    have h1 : BrowserMsg.lastErrorText
        (some (some "The message port closed before a response was received.")) =
        "The message port closed before a response was received." := by decide
    have h2 : ("The message port closed before a response was received." =
        "The object could not be cloned.") = False := by decide
    simp [BrowserMsg.transportBgCall, BrowserMsg.processRawMsgResponse, h1, h2]
    rw [String.append_assoc]
    congr 1

/-- C4 witness: at a concrete failing handler and a concrete successful
handler the amended equivalence statement holds. -/
theorem BrowserMsg.c4_bypass_success_equivalence_witness :
    (BrowserMsg.sendAwaitBypass
        (some (BrowserMsg.HandlerOutcome.fail ⟨BrowserMsg.ErrName.plainErr, "boom", "hstack"⟩))
        "ping" "tf" =
      BrowserMsg.Outcome.rejected ⟨BrowserMsg.ErrName.plainErr, "boom", "hstack"⟩) ∧
      (BrowserMsg.transportBgCall
          (some (BrowserMsg.HandlerOutcome.ok (BrowserMsg.ResVal.prim "pong")))
          "ping" "cstack" "fstack" ⟨0, []⟩).1 =
        BrowserMsg.Outcome.resolved (BrowserMsg.ResVal.prim "pong") :=
  ⟨((BrowserMsg.c4_bypass_success_equivalence
      (some (BrowserMsg.HandlerOutcome.fail ⟨BrowserMsg.ErrName.plainErr, "boom", "hstack"⟩))
      "ping" "cstack" "fstack" "tf" ⟨0, []⟩ ⟨by simp, by simp⟩).2.2.1
      ⟨BrowserMsg.ErrName.plainErr, "boom", "hstack"⟩ rfl).1,
    ((BrowserMsg.c4_bypass_success_equivalence
      (some (BrowserMsg.HandlerOutcome.ok (BrowserMsg.ResVal.prim "pong")))
      "ping" "cstack" "fstack" "tf" ⟨0, []⟩ ⟨by simp, by simp⟩).1
      (BrowserMsg.ResVal.prim "pong") rfl (by intro p h; cases h)).1⟩

/-! ### Propagation forwarding (claim C7) -/

/-- C7: for a window message from an acceptable origin whose id is not
yet in the dedup ledger, (a) if local dispatch did not occur — the
declared destination matches neither this context nor `'broadcast'`, or
no frame handler is registered for the name — and the message carries
the propagation flag, then the id is marked seen and the message is
forwarded up the parent chain: one flagged copy posted to the immediate
parent per ancestor level, hence nothing at the top window (depth 0);
and (b) a message whose dispatch did occur locally (`handled = true`) is
never re-propagated. -/
theorem BrowserMsg.c7_propagation_forward_and_stop (dest extOrigin : String) (depth : Nat)
    (st : BrowserMsg.CtxState) (origin : String) (e : BrowserMsg.SymEncryptedMessage)
    (horigin : origin = "https://mail.google.com" ∨ origin = extOrigin)
    (hunseen : e.uid ∉ st.processed) (huid : e.raw.uid = e.uid) :
    (((e.toDest ≠ dest ∧ e.toDest ≠ "broadcast") ∨ e.raw.name ∉ st.frameHandlers) →
      e.propagateToParent = true →
      e.uid ∈ (BrowserMsg.listenForWindowMessages dest extOrigin depth st origin e).1.processed ∧
        (BrowserMsg.listenForWindowMessages dest extOrigin depth st origin e).2.2 =
          List.replicate depth { e with propagateToParent := true } ∧
        (depth = 0 →
          (BrowserMsg.listenForWindowMessages dest extOrigin depth st origin e).2.2 = [])) ∧
      ((BrowserMsg.listenForWindowMessages dest extOrigin depth st origin e).2.1 = true →
        (BrowserMsg.listenForWindowMessages dest extOrigin depth st origin e).2.2 = []) := by
  have horigin2 : ¬(origin ≠ "https://mail.google.com" ∧ origin ≠ extOrigin) := by
    rcases horigin with h | h <;> simp [h]
  constructor
  · intro hnodisp hflag
    have hhandled :
        (if e.toDest = dest ∨ e.toDest = "broadcast" then
            BrowserMsg.handleMsg st (BrowserMsg.symDecrypt e)
          else (st, false)).2 = false := by
      rcases hnodisp with ⟨h1, h2⟩ | hnr
      · simp [h1, h2]
      · split_ifs with hdm
        · simp [BrowserMsg.handleMsg, BrowserMsg.symDecrypt, huid ▸ hunseen, hnr]
        · rfl
    simp only [BrowserMsg.listenForWindowMessages, if_neg horigin2, if_neg hunseen]
    rw [if_pos (by simp [hhandled, hflag])]
    refine ⟨by simp [List.mem_insert_iff], rfl, ?_⟩
    intro h0
    simp [BrowserMsg.sendUpParentLine, h0]
  · intro hhandled
    by_contra hposts
    simp only [BrowserMsg.listenForWindowMessages, if_neg horigin2, if_neg hunseen] at hhandled hposts
    split_ifs at hhandled hposts
    simp_all

/-- C7 witness: a concrete unhandled flagged broadcast at depth 2 is
marked seen and forwarded twice to the immediate parent, and at depth 0
nothing is forwarded. -/
theorem BrowserMsg.c7_propagation_forward_and_stop_witness :
    ("u" ∈ (BrowserMsg.listenForWindowMessages "d" "ext" 2 ⟨[], [], ⟨0, []⟩, []⟩ "ext"
        ⟨"u", "broadcast", true, ⟨"n", [], [], some "broadcast", "u", ""⟩⟩).1.processed ∧
      (BrowserMsg.listenForWindowMessages "d" "ext" 2 ⟨[], [], ⟨0, []⟩, []⟩ "ext"
          ⟨"u", "broadcast", true, ⟨"n", [], [], some "broadcast", "u", ""⟩⟩).2.2 =
        List.replicate 2 ⟨"u", "broadcast", true, ⟨"n", [], [], some "broadcast", "u", ""⟩⟩ ∧
      (2 = 0 → (BrowserMsg.listenForWindowMessages "d" "ext" 2 ⟨[], [], ⟨0, []⟩, []⟩ "ext"
          ⟨"u", "broadcast", true, ⟨"n", [], [], some "broadcast", "u", ""⟩⟩).2.2 = [])) :=
  (BrowserMsg.c7_propagation_forward_and_stop "d" "ext" 2 ⟨[], [], ⟨0, []⟩, []⟩ "ext"
      ⟨"u", "broadcast", true, ⟨"n", [], [], some "broadcast", "u", ""⟩⟩
      (Or.inr rfl) (by decide) rfl).1 (Or.inr (by decide)) rfl

/-! ### Outbound propagation (claim C3)

A concrete five-frame hierarchy: frame 0 is the top window; 1 is its
child; 2 the grandchild; the sender 3 is nested three levels deep under
2; frame 4 is 3's same-origin sibling (also a child of 2). -/

/-- A frame context with a handler registered for `"n"`. -/
def BrowserMsg.c3Handlers : BrowserMsg.CtxState := ⟨[], ["n"], ⟨0, []⟩, []⟩

/-- A frame context with no handler registered. -/
def BrowserMsg.c3NoHandlers : BrowserMsg.CtxState := ⟨[], [], ⟨0, []⟩, []⟩

/-- The broadcast envelope sent from frame 3. -/
def BrowserMsg.c3Msg : BrowserMsg.RawMsg := ⟨"n", [], [], some "broadcast", "u", ""⟩

/-- The hierarchy with the handler registered in every frame. -/
def BrowserMsg.c3FramesAllHandle : List BrowserMsg.FrameCtx :=
  [⟨"d0", none, "ext", BrowserMsg.c3Handlers⟩, ⟨"d1", some 0, "ext", BrowserMsg.c3Handlers⟩,
    ⟨"d2", some 1, "ext", BrowserMsg.c3Handlers⟩, ⟨"d3", some 2, "ext", BrowserMsg.c3Handlers⟩,
    ⟨"d4", some 2, "ext", BrowserMsg.c3Handlers⟩]

/-- The broadcast from frame 3 run to completion on that hierarchy. -/
def BrowserMsg.c3RunAll : BrowserMsg.SysState :=
  BrowserMsg.sysRun "ext" 20
    ⟨BrowserMsg.c3FramesAllHandle,
      BrowserMsg.sendRawWindowPosts BrowserMsg.c3FramesAllHandle "ext" 3 BrowserMsg.c3Msg⟩

/-- The hierarchy where the intermediate frames 1 and 2 have no handler
for the name (top window and both leaves do). -/
def BrowserMsg.c3FramesRelay : List BrowserMsg.FrameCtx :=
  [⟨"d0", none, "ext", BrowserMsg.c3Handlers⟩, ⟨"d1", some 0, "ext", BrowserMsg.c3NoHandlers⟩,
    ⟨"d2", some 1, "ext", BrowserMsg.c3NoHandlers⟩, ⟨"d3", some 2, "ext", BrowserMsg.c3Handlers⟩,
    ⟨"d4", some 2, "ext", BrowserMsg.c3Handlers⟩]

/-- The broadcast from frame 3 run to completion on the relay
hierarchy. -/
def BrowserMsg.c3RunRelay : BrowserMsg.SysState :=
  BrowserMsg.sysRun "ext" 20
    ⟨BrowserMsg.c3FramesRelay,
      BrowserMsg.sendRawWindowPosts BrowserMsg.c3FramesRelay "ext" 3 BrowserMsg.c3Msg⟩

/-- C3 counterexample: for the broadcast sent from frame 3 (nested three
levels deep), the sender's outbound posts target only itself and its
*immediate* parent (frame 2, three identical copies) — `sendUpParentLine`
posts to `window.parent` on every iteration of its walk, so no post
targets the grandparent or the top window, refuting "re-posts it at
each level of the parent chain up to the top window"; and running the
whole hierarchy to completion with the handler registered everywhere,
the top window and the same-origin sibling frame each dispatch the
broadcast zero times, not once — the parent handles it and handled
contexts do not re-propagate, and no frame ever posts to a sibling. -/
theorem BrowserMsg.c3_propagation_counterexample :
    (BrowserMsg.sendRawWindowPosts BrowserMsg.c3FramesAllHandle "ext" 3
        BrowserMsg.c3Msg).map (fun post => post.target) = [3, 2, 2, 2] ∧
      BrowserMsg.invokedCountAt BrowserMsg.c3RunAll 0 "n" "u" = 0 ∧
      BrowserMsg.invokedCountAt BrowserMsg.c3RunAll 4 "n" "u" = 0 ∧
      BrowserMsg.c3RunAll.queue = [] := by
  decide

/-- C3 (amended): a send from a non-privileged context with a non-null
destination encrypts the envelope (its id as the nonce) and posts the
ciphertext to every extension-origin child iframe, to the document's own
window, and — once per ancestor level — to the sender's *immediate*
parent only (flagged for propagation); ancestors beyond the immediate
parent are reached hop by hop through the inbound forwarding of
non-handling frames, so when the intermediate frames do not handle the
broadcast the top window dispatches it exactly once; same-origin sibling
frames are not reached through this channel at all (the sibling's frame
state stays untouched). -/
theorem BrowserMsg.c3_propagation_amended :
    (∀ (frames : List BrowserMsg.FrameCtx) (extOrigin : String) (sender : Nat)
        (msg : BrowserMsg.RawMsg),
      (BrowserMsg.sendRawWindowPosts frames extOrigin sender msg).map
          (fun post => post.target) =
        BrowserMsg.childFramesOf frames extOrigin sender ++ sender ::
          List.replicate (BrowserMsg.depthOf frames sender)
            (BrowserMsg.parentTargetOf frames sender)) ∧
      BrowserMsg.invokedCountAt BrowserMsg.c3RunRelay 0 "n" "u" = 1 ∧
      BrowserMsg.invokedCountAt BrowserMsg.c3RunRelay 4 "n" "u" = 0 ∧
      BrowserMsg.c3RunRelay.frames[4]? = some ⟨"d4", some 2, "ext", BrowserMsg.c3Handlers⟩ ∧
      BrowserMsg.c3RunRelay.queue = [] := by
  refine ⟨?_, by decide, by decide, by decide, by decide⟩
  intro frames extOrigin sender msg
  simp only [BrowserMsg.sendRawWindowPosts, BrowserMsg.sendUpParentLine, List.map_append,
    List.map_map, List.map_cons, List.map_replicate, List.map_nil]
  generalize BrowserMsg.childFramesOf frames extOrigin sender = l
  induction l with
  | nil => rfl
  | cons c rest ih => simpa using ih


/-! ### OAuth popup result lemmas (claim C9) -/

/-- A string with a nonempty prefix is nonempty. -/
theorem strAppendLeftNeEmpty (a b : String) (ha : a ≠ "") : a ++ b ≠ "" := by
  intro h
  apply ha
  have hd := congrArg String.data h
  simp at hd
  obtain ⟨data⟩ := a
  simp at hd
  simp [hd.1]

/-- `String(err)` of a thrown error is never empty. -/
theorem GoogleOAuth.renderThrown_ne_empty (t : GoogleOAuth.Thrown) :
    GoogleOAuth.renderThrown t ≠ "" := by
  cases t <;> exact strAppendLeftNeEmpty _ _ (by decide)

/-- JS truthiness of an optional string, unfolded. -/
theorem GoogleOAuth.truthyS_iff (o : Option String) :
    GoogleOAuth.truthyS o = true ↔ ∃ s, o = some s ∧ s ≠ "" := by
  cases o <;> simp [GoogleOAuth.truthyS]

/-- The discriminated-result contract of the popup flow. -/
def GoogleOAuth.ResContract (r : GoogleOAuth.AuthRes) : Prop :=
  (r.result = GoogleOAuth.AuthResultTag.success →
      (∃ em, r.acctEmail = some em ∧ em ≠ "") ∧ ∃ tok, r.idToken = some tok) ∧
    (r.result = GoogleOAuth.AuthResultTag.denied ∨
        r.result = GoogleOAuth.AuthResultTag.errorTag →
      ∃ s, r.error = some s ∧ s ≠ "")

/-- Every `Except.ok` result of the `getAuthRes` try body satisfies the
discriminated-result contract: a success carries a nonempty account
email and a present id token; a denial or error carries a nonempty
reason. -/
theorem GoogleOAuth.getAuthResTryBody_ok_spec (requestedScopes : List String)
    (expectedState : String) (acctEmail : Option String) (env : GoogleOAuth.AuthEnv)
    (awr : GoogleOAuth.AuthWindowResult) (r : GoogleOAuth.AuthRes)
    (h : GoogleOAuth.getAuthResTryBody requestedScopes expectedState acctEmail env awr =
      Except.ok r) :
    GoogleOAuth.ResContract r := by
  simp only [GoogleOAuth.getAuthResTryBody] at h
  by_cases h1 : GoogleOAuth.truthyS awr.url
  case neg =>
    rw [if_pos (by simpa using h1)] at h
    injection h with h
    subst h
    exact ⟨(fun hs => nomatch hs), fun _ => ⟨_, rfl, by decide⟩⟩
  case pos =>
    rw [if_neg (by simpa using h1)] at h
    by_cases h2 : GoogleOAuth.truthyS awr.error
    case pos =>
      rw [if_pos h2] at h
      injection h with h
      subst h
      obtain ⟨s, hs, hne⟩ := (GoogleOAuth.truthyS_iff awr.error).mp h2
      exact ⟨(fun hs2 => nomatch hs2), fun _ => ⟨s, hs, hne⟩⟩
    case neg =>
      rw [if_neg h2] at h
      cases hpp : env.parseParams with
      | error t =>
        simp only [hpp] at h
        exact Except.noConfusion h
      | ok v =>
        obtain ⟨allowedScopes, code, receivedState⟩ := v
        simp only [hpp] at h
        by_cases h3 : GoogleOAuth.scopesToCheck.any
            (fun s => requestedScopes.contains s && ¬strIncludes allowedScopes s)
        case pos =>
          rw [if_pos h3] at h
          injection h with h
          subst h
          exact ⟨(fun hs => nomatch hs), fun _ => ⟨_, rfl, by decide⟩⟩
        case neg =>
          rw [if_neg h3] at h
          by_cases h4 : GoogleOAuth.truthyS code
          case neg =>
            rw [if_pos (by simpa using h4)] at h
            injection h with h
            subst h
            exact ⟨(fun hs => nomatch hs), fun _ => ⟨_, rfl, by decide⟩⟩
          case pos =>
            rw [if_neg (by simpa using h4)] at h
            by_cases h5 : receivedState = expectedState
            case neg =>
              rw [if_pos (by simpa using h5)] at h
              injection h with h
              subst h
              exact ⟨(fun hs => nomatch hs), fun _ => ⟨_, rfl, by decide⟩⟩
            case pos =>
              rw [if_neg (by simpa using h5)] at h
              cases htok : env.tokens with
              | error t =>
                simp only [htok] at h
                exact Except.noConfusion h
              | ok idToken =>
                simp only [htok] at h
                cases hem : env.idTokenEmail with
                | error t =>
                  simp only [hem] at h
                  exact Except.noConfusion h
                | ok email =>
                  simp only [hem] at h
                  by_cases h6 : GoogleOAuth.truthyS email
                  case neg =>
                    rw [if_pos (by simpa using h6)] at h
                    cases h
                  case pos =>
                    rw [if_neg (by simpa using h6)] at h
                    injection h with h
                    subst h
                    obtain ⟨em, hem2, hne⟩ := (GoogleOAuth.truthyS_iff email).mp h6
                    refine ⟨fun _ => ⟨⟨em, hem2, hne⟩, idToken, rfl⟩, fun hd => ?_⟩
                    rcases hd with hd | hd <;> exact nomatch hd

/-- `getAuthRes` always satisfies the discriminated-result contract. -/
theorem GoogleOAuth.getAuthRes_spec (requestedScopes : List String) (expectedState : String)
    (acctEmail : Option String) (env : GoogleOAuth.AuthEnv)
    (awr : GoogleOAuth.AuthWindowResult) :
    GoogleOAuth.ResContract
      (GoogleOAuth.getAuthRes requestedScopes expectedState acctEmail env awr) := by
  unfold GoogleOAuth.getAuthRes
  cases htb : GoogleOAuth.getAuthResTryBody requestedScopes expectedState acctEmail env awr with
  | ok r =>
    exact GoogleOAuth.getAuthResTryBody_ok_spec requestedScopes expectedState acctEmail env
      awr r htb
  | error t =>
    cases t with
    | assertErr m =>
      exact ⟨(fun hs => nomatch hs), fun _ => ⟨_, rfl, by decide⟩⟩
    | errObj m =>
      exact ⟨(fun hs => nomatch hs),
        fun _ => ⟨_, rfl, GoogleOAuth.renderThrown_ne_empty (GoogleOAuth.Thrown.errObj m)⟩⟩

/-- C9: every value returned (not thrown) by `GoogleOAuth.newAuthPopup`
is a discriminated result in which a `Success` tag always comes with a
nonempty account email and a nonempty identity token — a grant missing
either is downgraded to the `Error` tag — and every `Denied` or `Error`
tag comes with a nonempty human-readable reason string. -/
theorem GoogleOAuth.c9_auth_popup_discriminated_result (flavor : String)
    (acctEmail0 : Option String) (scopes0 : Option (List String)) (save0 : Option Bool)
    (env : GoogleOAuth.AuthEnv) (r : GoogleOAuth.AuthRes)
    (hok : GoogleOAuth.newAuthPopup flavor acctEmail0 scopes0 save0 env = Except.ok r) :
    ((r.result = GoogleOAuth.AuthResultTag.success →
        (∃ em, r.acctEmail = some em ∧ em ≠ "") ∧ ∃ tok, r.idToken = some tok ∧ tok ≠ "") ∧
      (r.result = GoogleOAuth.AuthResultTag.denied ∨
          r.result = GoogleOAuth.AuthResultTag.errorTag →
        ∃ s, r.error = some s ∧ s ≠ "")) := by
  simp only [GoogleOAuth.newAuthPopup] at hok
  split at hok
  case h_1 => exact Except.noConfusion hok
  case h_2 t scopes heq =>
    split at hok
    case h_1 => exact Except.noConfusion hok
    case h_2 awr hawr =>
      have hspec := GoogleOAuth.getAuthRes_spec scopes
        ("CRYPTUP_STATE_" ++ env.authReqJson) (acctEmail0.map String.toLower) env awr
      by_cases hsucc : (GoogleOAuth.getAuthRes scopes ("CRYPTUP_STATE_" ++ env.authReqJson)
        (acctEmail0.map String.toLower) env awr).result = GoogleOAuth.AuthResultTag.success
      case neg =>
        rw [if_neg hsucc] at hok
        injection hok with hok
        subst hok
        exact ⟨fun hs => absurd hs hsucc, hspec.2⟩
      case pos =>
        rw [if_pos hsucc] at hok
        by_cases hidt : GoogleOAuth.truthyS (GoogleOAuth.getAuthRes scopes
          ("CRYPTUP_STATE_" ++ env.authReqJson) (acctEmail0.map String.toLower) env awr).idToken
        case neg =>
          rw [if_pos (by simpa using hidt)] at hok
          injection hok with hok
          subst hok
          refine ⟨(fun hs => nomatch hs), fun _ => ?_⟩
          refine ⟨_, rfl, ?_⟩
          decide
        case pos =>
          rw [if_neg (by simpa using hidt)] at hok
          by_cases hemail : GoogleOAuth.truthyS (GoogleOAuth.getAuthRes scopes
            ("CRYPTUP_STATE_" ++ env.authReqJson) (acctEmail0.map String.toLower) env
            awr).acctEmail
          case neg =>
            rw [if_pos (by simpa using hemail)] at hok
            injection hok with hok
            subst hok
            refine ⟨(fun hs => nomatch hs), fun _ => ?_⟩
            refine ⟨_, rfl, ?_⟩
            decide
          case pos =>
            rw [if_neg (by simpa using hemail)] at hok
            cases hfes : env.fesCheck with
            | ok u =>
              simp only [hfes] at hok
              injection hok with hok
              subst hok
              refine ⟨fun _ => ?_, fun hd => ?_⟩
              · obtain ⟨tok, htok, htokne⟩ := (GoogleOAuth.truthyS_iff _).mp hidt
                obtain ⟨em, hem, hemne⟩ := (GoogleOAuth.truthyS_iff _).mp hemail
                exact ⟨⟨em, hem, hemne⟩, tok, htok, htokne⟩
              · rcases hd with hd | hd <;> rw [hsucc] at hd <;> exact nomatch hd
            | error e =>
              simp only [hfes] at hok
              by_cases hunreach : env.fesUnreachable
              case pos =>
                rw [if_pos hunreach] at hok
                injection hok with hok
                subst hok
                refine ⟨(fun hs => nomatch hs), fun _ => ?_⟩
                refine ⟨_, rfl, ?_⟩
                exact strAppendLeftNeEmpty _ _ (strAppendLeftNeEmpty _ _ (by decide))
              case neg =>
                rw [if_neg hunreach] at hok
                injection hok with hok
                subst hok
                refine ⟨(fun hs => nomatch hs), fun _ => ?_⟩
                refine ⟨_, rfl, ?_⟩
                exact strAppendLeftNeEmpty _ _ (by decide)

/-- C9 witness: a concrete popup flow whose window reports no url
returns a `Denied` result with a nonempty reason. -/
theorem GoogleOAuth.c9_auth_popup_discriminated_result_witness :
    ((GoogleOAuth.AuthRes.mk GoogleOAuth.AuthResultTag.denied none
          (some "Invalid response url") none).result = GoogleOAuth.AuthResultTag.success →
        (∃ em, (GoogleOAuth.AuthRes.mk GoogleOAuth.AuthResultTag.denied none
          (some "Invalid response url") none).acctEmail = some em ∧ em ≠ "") ∧
          ∃ tok, (GoogleOAuth.AuthRes.mk GoogleOAuth.AuthResultTag.denied none
            (some "Invalid response url") none).idToken = some tok ∧ tok ≠ "") ∧
      ((GoogleOAuth.AuthRes.mk GoogleOAuth.AuthResultTag.denied none
            (some "Invalid response url") none).result = GoogleOAuth.AuthResultTag.denied ∨
          (GoogleOAuth.AuthRes.mk GoogleOAuth.AuthResultTag.denied none
            (some "Invalid response url") none).result = GoogleOAuth.AuthResultTag.errorTag →
        ∃ s, (GoogleOAuth.AuthRes.mk GoogleOAuth.AuthResultTag.denied none
          (some "Invalid response url") none).error = some s ∧ s ≠ "") :=
  GoogleOAuth.c9_auth_popup_discriminated_result "consumer" none (some []) (some false)
    ⟨Except.ok ⟨none, none⟩, Except.ok ("", none, ""), Except.ok "", Except.ok none,
      Except.ok (), false, "j"⟩
    (GoogleOAuth.AuthRes.mk GoogleOAuth.AuthResultTag.denied none
      (some "Invalid response url") none)
    rfl
